import Mathlib

/-!
Shallow embedding of `src/trips/scheduling.py` (driver-log-backend).

The Python module generates an FMCSA hours-of-service trip schedule from a
GeoJSON route (a list of segments, each with a distance in meters and a
duration in seconds) and the driver's already-used cycle hours.

Modelling conventions:
* All numeric quantities (meters, miles, hours, timestamps) are rationals.
  Python floats are modelled as exact rational arithmetic.
* Timestamps are rationals measured in hours; `datetime.utcnow()` becomes an
  explicit parameter `now`, and `timedelta(minutes=m)` becomes `m / 60`.
  The ISO rendering of timestamps (`isoformat() + "Z"`) is injective on
  datetimes, so timestamps are kept as rationals in the output.
* Statuses and notes are the literal strings of the source; the two notes
  that interpolate a mileage number keep only their constant stem
  (`"Drive to pickup"`, `"Drive leg"`), since no claim depends on them.
* The field `end` of a schedule entry is named `stop` (`end` is a keyword).
-/

set_option maxRecDepth 100000

namespace DriverLog

/-- A route segment: `{"distance": meters, "duration": seconds}`. -/
structure Seg where
  distance : ℚ
  duration : ℚ
  deriving DecidableEq, Repr

/-- A GeoJSON feature; only `properties["segments"]` is ever read. -/
structure Feature where
  segments : List Seg
  deriving DecidableEq, Repr

/-- The `route_geojson` argument; only `"features"` is ever read. -/
structure RouteGeoJson where
  features : List Feature
  deriving DecidableEq, Repr

/-- One emitted schedule entry (dict built by the local `append` helper).
The field `end` of the source is named `stop` (`end` is a keyword). -/
structure Period where
  status : String
  start : ℚ
  stop : ℚ
  note : String
  miles_since_start : ℚ
  deriving DecidableEq, Repr

/-- The value returned by `compute_schedule_for_route`. -/
structure ScheduleResult where
  schedule : List Period
  total_miles : ℚ
  estimated_drive_hours : ℚ
  deriving DecidableEq, Repr

def AVG_SPEED_MPH : ℚ := 55

def FUEL_RANGE_MILES : ℚ := 1000

def FUEL_STOP_MIN : ℚ := 45

def PICKUP_MIN : ℚ := 60

def DROPOFF_MIN : ℚ := 60

def MAX_DRIVE_HRS : ℚ := 11

def MAX_ON_DUTY_HRS : ℚ := 14

def BREAK_AFTER_HRS : ℚ := 8

def OFF_DUTY_RESET_HRS : ℚ := 10

def CYCLE_LIMIT_HRS : ℚ := 70

def RESTART_OFF_DUTY_HRS : ℚ := 34

/-- Meters per mile, the literal `1609.34` of the source. -/
def MILE : ℚ := 160934/100

/-- The mutable locals of `compute_schedule_for_route` (lines 36-43). -/
structure SimState where
  t : ℚ
  schedule : List Period
  miles_driven : ℚ
  driving_today : ℚ
  on_duty_today : ℚ
  driving_since_break : ℚ
  cycle_used : ℚ
  miles_until_fuel : ℚ
  remaining_miles : ℚ
  deriving DecidableEq, Repr

/-- The local helper `append(status, start, end, note)` (lines 46-53): pushes a
schedule entry annotated with the current `miles_driven`. -/
def appendP (st : SimState) (status : String) (start stop : ℚ) (note : String) :
    SimState :=
  { st with schedule :=
      st.schedule ++ [⟨status, start, stop, note, st.miles_driven⟩] }

/-- Loop branch, lines 86-91: mandatory 30 min break after 8 h driving. -/
def breakStep (st : SimState) : SimState :=
  let st := appendP st "OffDuty" st.t (st.t + 30/60)
      "30 min mandatory break (after 8 hrs driving)"
  { st with t := st.t + 30/60, driving_since_break := 0 }

/-- Loop branch, lines 94-118: daily 11 h-drive / 14 h-on-duty limit.
Both sub-branches end with line 117, which zeroes the three short-term
counters (on the sleeper path `driving_today`/`on_duty_today`/
`driving_since_break` are zeroed twice, at line 100 and line 117). -/
def dailyStep (st : SimState) : SimState :=
  if st.remaining_miles > 50 then
    let s1 := min 7 (MAX_ON_DUTY_HRS - st.on_duty_today)
    let sb_start := st.t
    let sb_end := st.t + s1
    let st := appendP st "Sleeper" sb_start sb_end "Sleeper berth (split rest)"
    let st := { st with
      t := sb_end,
      driving_today := 0, on_duty_today := 0, driving_since_break := 0,
      cycle_used := st.cycle_used + s1 }
    let s2 := min 3 OFF_DUTY_RESET_HRS
    let st :=
      if st.remaining_miles > 100 then
        let rest_start := st.t
        let rest_end := st.t + s2
        let st := appendP st "OffDuty" rest_start rest_end
            "Off-duty completion of split rest"
        { st with t := rest_end, cycle_used := st.cycle_used + s2 }
      else st
    { st with driving_today := 0, on_duty_today := 0, driving_since_break := 0 }
  else
    let reset_start := st.t
    let reset_end := st.t + OFF_DUTY_RESET_HRS
    let st := appendP st "OffDuty" reset_start reset_end
        "10 hr off-duty reset (11/14 hr rule)"
    let st := { st with
      t := reset_end,
      cycle_used := st.cycle_used + OFF_DUTY_RESET_HRS }
    { st with driving_today := 0, on_duty_today := 0, driving_since_break := 0 }

/-- Loop branch, lines 121-126: 70 h / 8-day cycle limit, 34 h restart. -/
def restartStep (st : SimState) : SimState :=
  let st := appendP st "OffDuty" st.t (st.t + RESTART_OFF_DUTY_HRS)
      "34 hr restart (70 hr / 8-day rule)"
  { st with t := st.t + RESTART_OFF_DUTY_HRS, cycle_used := 0 }

/-- The miles of the next driving leg (line 129). -/
def milesThisLeg (st : SimState) : ℚ :=
  min st.remaining_miles AVG_SPEED_MPH

/-- The hours of the next driving leg (lines 130-132): the nominal hour is
further capped by the remaining daily-drive and on-duty allowances. -/
def hoursThisLeg (st : SimState) : ℚ :=
  min (milesThisLeg st / AVG_SPEED_MPH)
    (min (MAX_DRIVE_HRS - st.driving_today) (MAX_ON_DUTY_HRS - st.on_duty_today))

/-- Loop branch, lines 128-153: drive a bounded leg, then maybe a fuel stop. -/
def driveStep (st : SimState) : SimState :=
  let miles_this_leg := milesThisLeg st
  let hours_this_leg := hoursThisLeg st
  let drive_start := st.t
  let drive_end := st.t + hours_this_leg
  let st := appendP st "Driving" drive_start drive_end "Drive leg"
  let st := { st with
    t := drive_end,
    remaining_miles := st.remaining_miles - miles_this_leg,
    miles_driven := st.miles_driven + miles_this_leg,
    driving_today := st.driving_today + hours_this_leg,
    on_duty_today := st.on_duty_today + hours_this_leg,
    driving_since_break := st.driving_since_break + hours_this_leg,
    cycle_used := st.cycle_used + hours_this_leg,
    miles_until_fuel := st.miles_until_fuel - miles_this_leg }
  if st.miles_until_fuel ≤ 0 ∧ st.remaining_miles > 0 then
    let fuel_start := st.t
    let fuel_end := st.t + FUEL_STOP_MIN/60
    let st := appendP st "OnDutyNotDriving" fuel_start fuel_end "Fuel stop"
    { st with
      t := fuel_end,
      on_duty_today := st.on_duty_today + FUEL_STOP_MIN/60,
      cycle_used := st.cycle_used + FUEL_STOP_MIN/60,
      miles_until_fuel := FUEL_RANGE_MILES }
  else st

/-- One iteration of the main loop: the first matching rule wins
(`continue` after each rule makes the chain first-match). -/
def loopStep (st : SimState) : SimState :=
  if st.driving_since_break ≥ BREAK_AFTER_HRS then breakStep st
  else if st.driving_today ≥ MAX_DRIVE_HRS ∨ st.on_duty_today ≥ MAX_ON_DUTY_HRS then
    dailyStep st
  else if st.cycle_used ≥ CYCLE_LIMIT_HRS then restartStep st
  else driveStep st

/-- The `while remaining_miles > 0` loop (line 84), with explicit fuel. -/
def loopRun : Nat → SimState → SimState
  | 0, st => st
  | Nat.succ n, st =>
      if st.remaining_miles > 0 then loopRun n (loopStep st) else st

/-- Termination measure for the main loop: the loop needs at most
`simMeasure st` more iterations (each iteration strictly decreases it). -/
def simMeasure (st : SimState) : Nat :=
  8 * (⌈st.remaining_miles / AVG_SPEED_MPH⌉.toNat)
    + (if st.driving_since_break ≥ BREAK_AFTER_HRS then 4 else 0)
    + (if st.driving_today ≥ MAX_DRIVE_HRS ∨ st.on_duty_today ≥ MAX_ON_DUTY_HRS
        then 2 else 0)
    + (if st.cycle_used ≥ CYCLE_LIMIT_HRS then 1 else 0)

/-- Lines 36-43, 55-81: the pre-trip inspection, the drive-to-pickup leg
(emitted only when the route has a segment), the pickup stop, and the
computation of `remaining_miles` — everything before the main loop. -/
def preLoopState (segments : List Seg) (cyc now : ℚ) : SimState :=
  let st : SimState :=
    { t := now, schedule := [], miles_driven := 0, driving_today := 0,
      on_duty_today := 0, driving_since_break := 0, cycle_used := cyc,
      miles_until_fuel := FUEL_RANGE_MILES, remaining_miles := 0 }
  let st := appendP st "OnDutyNotDriving" st.t (st.t + 30/60) "Pre-trip inspection"
  let st := { st with
    t := st.t + 30/60,
    on_duty_today := st.on_duty_today + 1/2,
    cycle_used := st.cycle_used + 1/2 }
  let st :=
    match segments with
    | [] => st
    | seg :: _ =>
        let first_leg_distance_mi := seg.distance / MILE
        let hours_to_pickup := first_leg_distance_mi / AVG_SPEED_MPH
        let st := appendP st "Driving" st.t (st.t + hours_to_pickup)
            "Drive to pickup"
        { st with
          t := st.t + hours_to_pickup,
          miles_driven := st.miles_driven + first_leg_distance_mi,
          driving_since_break := st.driving_since_break + hours_to_pickup,
          driving_today := st.driving_today + hours_to_pickup,
          on_duty_today := st.on_duty_today + hours_to_pickup,
          cycle_used := st.cycle_used + hours_to_pickup }
  let st := appendP st "OnDutyNotDriving" st.t (st.t + PICKUP_MIN/60) "Pickup cargo"
  let st := { st with
    t := st.t + PICKUP_MIN/60,
    on_duty_today := st.on_duty_today + PICKUP_MIN/60,
    cycle_used := st.cycle_used + PICKUP_MIN/60 }
  { st with remaining_miles :=
      ((segments.drop 1).map Seg.distance).sum / MILE }

/-- Lines 156-159: the dropoff stop and the final 10 h rest (after the last
append the clock `t` is not advanced, as in the source). -/
def postLoopState (st : SimState) : SimState :=
  let st := appendP st "OnDutyNotDriving" st.t (st.t + DROPOFF_MIN/60) "Unload cargo"
  let st := { st with t := st.t + DROPOFF_MIN/60 }
  appendP st "OffDuty" st.t (st.t + OFF_DUTY_RESET_HRS) "10 hr rest after trip"

/-- Python's `round(x, 2)` on the exact rational value: round half to even
at two decimal places. -/
def round2 (x : ℚ) : ℚ :=
  let y := x * 100
  let f := ⌊y⌋
  let r := y - f
  (if r < 1/2 then f else if r > 1/2 then f + 1
   else if 2 ∣ f then f else f + 1 : ℤ) / 100

/-- `compute_schedule_for_route(route_geojson, current_cycle_used_hours)`
(lines 17-165), with the wall clock `datetime.utcnow()` as the explicit
parameter `now`. -/
def compute_schedule_for_route (route : RouteGeoJson) (cyc now : ℚ) :
    ScheduleResult :=
  match route.features with
  | [] => { schedule := [], total_miles := 0, estimated_drive_hours := 0 }
  | f :: _ =>
      let segments := f.segments
      let total_meters := (segments.map Seg.distance).sum
      let total_seconds := (segments.map Seg.duration).sum
      let total_miles := total_meters / MILE
      let est_drive_hours := total_seconds / 3600
      let st := preLoopState segments cyc now
      let st := loopRun (simMeasure st + 1) st
      let st := postLoopState st
      { schedule := st.schedule,
        total_miles := round2 total_miles,
        estimated_drive_hours := round2 est_drive_hours }

/-- Default period used with `List.getD` when indexing schedules. -/
def dfltPeriod : Period := ⟨"", 0, 0, "", 0⟩

/-- The sleeper-berth period emitted by the daily-limit branch. -/
def sleeperPeriod (st : SimState) : Period :=
  ⟨"Sleeper", st.t, st.t + min 7 (MAX_ON_DUTY_HRS - st.on_duty_today),
   "Sleeper berth (split rest)", st.miles_driven⟩

/-- The split-rest completion period emitted by the daily-limit branch. -/
def complPeriod (st : SimState) : Period :=
  ⟨"OffDuty", st.t + min 7 (MAX_ON_DUTY_HRS - st.on_duty_today),
   st.t + min 7 (MAX_ON_DUTY_HRS - st.on_duty_today) + min 3 OFF_DUTY_RESET_HRS,
   "Off-duty completion of split rest", st.miles_driven⟩

/-- The driving-leg period emitted by the drive branch. -/
def drivePeriod (st : SimState) : Period :=
  ⟨"Driving", st.t, st.t + hoursThisLeg st, "Drive leg", st.miles_driven⟩

/-- Whether the fuel-stop check (line 147) fires after the driving leg. -/
def fuelFires (st : SimState) : Prop :=
  st.miles_until_fuel - milesThisLeg st ≤ 0 ∧ st.remaining_miles - milesThisLeg st > 0

instance (st : SimState) : Decidable (fuelFires st) := by
  unfold fuelFires; infer_instance

/-- The fuel-stop period emitted when `fuelFires`. -/
def fuelPeriod (st : SimState) : Period :=
  ⟨"OnDutyNotDriving", st.t + hoursThisLeg st,
   st.t + hoursThisLeg st + FUEL_STOP_MIN/60, "Fuel stop", st.miles_driven + milesThisLeg st⟩

/-- The periods emitted by one loop iteration. -/
def stepEmits (st : SimState) : List Period :=
  (loopStep st).schedule.drop st.schedule.length

/-- The periods emitted by (at most) `n` iterations of the main loop. -/
def emittedRun : Nat → SimState → List Period
  | 0, _ => []
  | Nat.succ n, st =>
      if st.remaining_miles > 0 then stepEmits st ++ emittedRun n (loopStep st)
      else []

/-- `chained t l u`: the periods of `l` tile the time axis exactly from `t`
to `u`: the first starts at `t`, each starts where the previous one stopped,
and the last stops at `u`. -/
def chained : ℚ → List Period → ℚ → Prop
  | t, [], u => t = u
  | t, p :: ps, u => p.start = t ∧ chained p.stop ps u

/-- A single 715-mile pickup leg (`715 * 1609.34` meters). -/
def routeC2 : RouteGeoJson := ⟨[⟨[⟨715 * MILE, 0⟩]⟩]⟩

/-- A zero-length pickup leg followed by 700 miles to drive. -/
def routeC6 : RouteGeoJson := ⟨[⟨[⟨0, 0⟩, ⟨700 * MILE, 0⟩]⟩]⟩

/-- A feature whose segment list is empty. -/
def routeC5 : RouteGeoJson := ⟨[⟨[]⟩]⟩

/-- The four status tags actually used by the code. -/
def statusOK (p : Period) : Prop :=
  p.status = "Driving" ∨ p.status = "OnDutyNotDriving"
    ∨ p.status = "OffDuty" ∨ p.status = "Sleeper"

instance (p : Period) : Decidable (statusOK p) := by
  unfold statusOK; infer_instance

/-- A 715-mile pickup leg (13 h, so `on_duty_today = 14.5` entering the
loop) followed by 60 more miles. -/
def routeC4 : RouteGeoJson := ⟨[⟨[⟨715 * MILE, 0⟩, ⟨60 * MILE, 0⟩]⟩]⟩

/-- The segments of the first feature (the only ones the code reads). -/
def segsOf (route : RouteGeoJson) : List Seg :=
  match route.features with
  | [] => []
  | f :: _ => f.segments

/-- Durations of all periods other than the split sleeper are non-negative. -/
def nonnegDur (st : SimState) : Prop :=
  ∀ p ∈ st.schedule, p.note ≠ "Sleeper berth (split rest)" → p.start ≤ p.stop

/-- Relation between adjacent periods: a non-`Driving` period leaves the
annotation unchanged on its successor, a `Driving` period can only raise
it. -/
def milesRel (p q : Period) : Prop :=
  (p.status = "Driving" → p.miles_since_start ≤ q.miles_since_start)
  ∧ (p.status ≠ "Driving" → q.miles_since_start = p.miles_since_start)

/-- The last emitted period relates to the current `miles_driven` the same
way it will relate to the next emitted period's annotation. -/
def lastLink (l : List Period) (m : ℚ) : Prop :=
  ∀ p, l.getLast? = some p →
    (p.status = "Driving" → p.miles_since_start ≤ m)
    ∧ (p.status ≠ "Driving" → p.miles_since_start = m)

/-- The full annotation invariant threaded through the simulation. -/
def milesInv (st : SimState) : Prop :=
  st.schedule.Chain' milesRel ∧ lastLink st.schedule st.miles_driven

/-- Translate a period's timestamps by `d` hours. -/
def shiftPeriod (d : ℚ) (p : Period) : Period :=
  { p with start := p.start + d, stop := p.stop + d }

/-- Translate a simulation state's clock and emitted timestamps by `d`. -/
def shiftState (d : ℚ) (st : SimState) : SimState :=
  { st with t := st.t + d, schedule := st.schedule.map (shiftPeriod d) }

/-- Translate a result's timestamps by `d`. -/
def shiftResult (d : ℚ) (r : ScheduleResult) : ScheduleResult :=
  { r with schedule := r.schedule.map (shiftPeriod d) }

/-- A route with a single zero-length segment. -/
def routeC8 : RouteGeoJson := ⟨[⟨[⟨0, 0⟩]⟩]⟩

/-- Sum of the durations of `Driving` periods before the first mandatory
30-minute break in a list of periods (0 if the list starts with a break). -/
def dsub : List Period → ℚ
  | [] => 0
  | p :: l =>
      if p.note = "30 min mandatory break (after 8 hrs driving)" then 0
      else (if p.status = "Driving" then p.stop - p.start else 0) + dsub l

/-- The periods that reset the short-term duty counters (the reset-type
periods other than the 34-hour restart, which resets only `cycle_used`). -/
def isResetPeriod (p : Period) : Prop :=
  p.note = "Sleeper berth (split rest)"
  ∨ p.note = "Off-duty completion of split rest"
  ∨ p.note = "10 hr off-duty reset (11/14 hr rule)"
  ∨ p.note = "10 hr rest after trip"

instance (p : Period) : Decidable (isResetPeriod p) := by
  unfold isResetPeriod; infer_instance

/-- A period that is neither a break nor a `Driving` period: invisible to
`dsub`. -/
def dsubNeutral (p : Period) : Prop :=
  p.status ≠ "Driving"
  ∧ p.note ≠ "30 min mandatory break (after 8 hrs driving)"

/-- Invariant of loop-top states inside a phase that started at a
daily-limit reset: `driving_since_break` is a whole number of hours ≤ 8,
`driving_today` moves in lockstep with it, and `on_duty_today` is at most
one fuel stop (45 min) ahead — with enough fuel range left to rule out a
second fuel stop before the next break. -/
def PhaseInv (st : SimState) : Prop :=
  (∃ k : ℕ, st.driving_since_break = (k : ℚ))
  ∧ st.driving_since_break ≤ 8
  ∧ st.driving_today = st.driving_since_break
  ∧ (st.on_duty_today = st.driving_since_break
     ∨ (st.on_duty_today = st.driving_since_break + 3/4
        ∧ 1000 ≤ st.miles_until_fuel + 55 * st.driving_since_break))

/-- A zero-length pickup leg, 1100 miles to drive, 60 h of the cycle
already used: the 70 h cycle limit fires mid-trip. -/
def routeC3 : RouteGeoJson := ⟨[⟨[⟨0, 0⟩, ⟨1100 * MILE, 0⟩]⟩]⟩

-- ----------------------------------------------------------------------
-- Theorems
-- ----------------------------------------------------------------------

theorem breakStep_eq (st : SimState) :
    breakStep st =
      ⟨st.t + 30/60,
       st.schedule ++ [⟨"OffDuty", st.t, st.t + 30/60,
         "30 min mandatory break (after 8 hrs driving)", st.miles_driven⟩],
       st.miles_driven, st.driving_today, st.on_duty_today, 0,
       st.cycle_used, st.miles_until_fuel, st.remaining_miles⟩ := rfl

theorem restartStep_eq (st : SimState) :
    restartStep st =
      ⟨st.t + RESTART_OFF_DUTY_HRS,
       st.schedule ++ [⟨"OffDuty", st.t, st.t + RESTART_OFF_DUTY_HRS,
         "34 hr restart (70 hr / 8-day rule)", st.miles_driven⟩],
       st.miles_driven, st.driving_today, st.on_duty_today,
       st.driving_since_break, 0, st.miles_until_fuel, st.remaining_miles⟩ := rfl

theorem dailyStep_eq_far (st : SimState) (h100 : 100 < st.remaining_miles) :
    dailyStep st =
      ⟨st.t + min 7 (MAX_ON_DUTY_HRS - st.on_duty_today) + min 3 OFF_DUTY_RESET_HRS,
       st.schedule ++ [sleeperPeriod st, complPeriod st],
       st.miles_driven, 0, 0, 0,
       st.cycle_used + min 7 (MAX_ON_DUTY_HRS - st.on_duty_today)
         + min 3 OFF_DUTY_RESET_HRS,
       st.miles_until_fuel, st.remaining_miles⟩ := by
  have h50 : 50 < st.remaining_miles := by linarith
  simp [dailyStep, appendP, sleeperPeriod, complPeriod, h50, h100]

theorem dailyStep_eq_mid (st : SimState) (h50 : 50 < st.remaining_miles)
    (h100 : ¬ 100 < st.remaining_miles) :
    dailyStep st =
      ⟨st.t + min 7 (MAX_ON_DUTY_HRS - st.on_duty_today),
       st.schedule ++ [sleeperPeriod st],
       st.miles_driven, 0, 0, 0,
       st.cycle_used + min 7 (MAX_ON_DUTY_HRS - st.on_duty_today),
       st.miles_until_fuel, st.remaining_miles⟩ := by
  simp [dailyStep, appendP, sleeperPeriod, h50, h100]

theorem dailyStep_eq_near (st : SimState) (h50 : ¬ 50 < st.remaining_miles) :
    dailyStep st =
      ⟨st.t + OFF_DUTY_RESET_HRS,
       st.schedule ++ [⟨"OffDuty", st.t, st.t + OFF_DUTY_RESET_HRS,
         "10 hr off-duty reset (11/14 hr rule)", st.miles_driven⟩],
       st.miles_driven, 0, 0, 0,
       st.cycle_used + OFF_DUTY_RESET_HRS,
       st.miles_until_fuel, st.remaining_miles⟩ := by
  simp [dailyStep, appendP, h50]

theorem driveStep_eq_nofuel (st : SimState) (h : ¬ fuelFires st) :
    driveStep st =
      ⟨st.t + hoursThisLeg st,
       st.schedule ++ [drivePeriod st],
       st.miles_driven + milesThisLeg st,
       st.driving_today + hoursThisLeg st,
       st.on_duty_today + hoursThisLeg st,
       st.driving_since_break + hoursThisLeg st,
       st.cycle_used + hoursThisLeg st,
       st.miles_until_fuel - milesThisLeg st,
       st.remaining_miles - milesThisLeg st⟩ := by
  unfold fuelFires at h
  simp [driveStep, appendP, drivePeriod, hoursThisLeg]
  intro h1
  by_contra h2
  exact h ⟨by linarith, by linarith⟩

theorem driveStep_eq_fuel (st : SimState) (h : fuelFires st) :
    driveStep st =
      ⟨st.t + hoursThisLeg st + FUEL_STOP_MIN/60,
       st.schedule ++ [drivePeriod st, fuelPeriod st],
       st.miles_driven + milesThisLeg st,
       st.driving_today + hoursThisLeg st,
       st.on_duty_today + hoursThisLeg st + FUEL_STOP_MIN/60,
       st.driving_since_break + hoursThisLeg st,
       st.cycle_used + hoursThisLeg st + FUEL_STOP_MIN/60,
       FUEL_RANGE_MILES,
       st.remaining_miles - milesThisLeg st⟩ := by
  obtain ⟨h1, h2⟩ := h
  simp [driveStep, appendP, drivePeriod, fuelPeriod, hoursThisLeg, h1, h2]

theorem loopStep_break (st : SimState)
    (h1 : st.driving_since_break ≥ BREAK_AFTER_HRS) :
    loopStep st = breakStep st := by
  unfold loopStep; rw [if_pos h1]

theorem loopStep_daily (st : SimState)
    (h1 : ¬ st.driving_since_break ≥ BREAK_AFTER_HRS)
    (h2 : st.driving_today ≥ MAX_DRIVE_HRS ∨ st.on_duty_today ≥ MAX_ON_DUTY_HRS) :
    loopStep st = dailyStep st := by
  unfold loopStep; rw [if_neg h1, if_pos h2]

theorem loopStep_restart (st : SimState)
    (h1 : ¬ st.driving_since_break ≥ BREAK_AFTER_HRS)
    (h2 : ¬ (st.driving_today ≥ MAX_DRIVE_HRS ∨ st.on_duty_today ≥ MAX_ON_DUTY_HRS))
    (h3 : st.cycle_used ≥ CYCLE_LIMIT_HRS) :
    loopStep st = restartStep st := by
  unfold loopStep; rw [if_neg h1, if_neg h2, if_pos h3]

theorem loopStep_drive (st : SimState)
    (h1 : ¬ st.driving_since_break ≥ BREAK_AFTER_HRS)
    (h2 : ¬ (st.driving_today ≥ MAX_DRIVE_HRS ∨ st.on_duty_today ≥ MAX_ON_DUTY_HRS))
    (h3 : ¬ st.cycle_used ≥ CYCLE_LIMIT_HRS) :
    loopStep st = driveStep st := by
  unfold loopStep; rw [if_neg h1, if_neg h2, if_neg h3]

theorem loopStep_schedule_append (st : SimState) :
    ∃ l, (loopStep st).schedule = st.schedule ++ l := by
  unfold loopStep; split_ifs with h1 h2 h3
  · exact ⟨_, by rw [breakStep_eq]⟩
  · by_cases h50 : 50 < st.remaining_miles
    · by_cases h100 : 100 < st.remaining_miles
      · exact ⟨_, by rw [dailyStep_eq_far st h100]⟩
      · exact ⟨_, by rw [dailyStep_eq_mid st h50 h100]⟩
    · exact ⟨_, by rw [dailyStep_eq_near st h50]⟩
  · exact ⟨_, by rw [restartStep_eq]⟩
  · by_cases hf : fuelFires st
    · exact ⟨_, by rw [driveStep_eq_fuel st hf]⟩
    · exact ⟨_, by rw [driveStep_eq_nofuel st hf]⟩

theorem loopStep_schedule (st : SimState) :
    (loopStep st).schedule = st.schedule ++ stepEmits st := by
  obtain ⟨l, hl⟩ := loopStep_schedule_append st
  rw [stepEmits, hl, List.drop_left]

theorem loopRun_schedule (n : Nat) (st : SimState) :
    (loopRun n st).schedule = st.schedule ++ emittedRun n st := by
  induction n generalizing st with
  | zero => simp [loopRun, emittedRun]
  | succ n ih =>
      rw [loopRun, emittedRun]
      by_cases h : st.remaining_miles > 0
      · rw [if_pos h, if_pos h, ih, loopStep_schedule, List.append_assoc]
      · rw [if_neg h, if_neg h, List.append_nil]

theorem emittedRun_of_done (n : Nat) (st : SimState)
    (h : ¬ st.remaining_miles > 0) : emittedRun n st = [] := by
  cases n with
  | zero => rfl
  | succ n => rw [emittedRun, if_neg h]

theorem chained_snoc (l : List Period) (t u e : ℚ) (s n : String) (m : ℚ)
    (h : chained t l u) :
    chained t (l ++ [⟨s, u, e, n, m⟩]) e := by
  induction l generalizing t with
  | nil => exact ⟨h.symm, rfl⟩
  | cons p ps ih => exact ⟨h.1, ih p.stop h.2⟩

theorem chained_chain' (l : List Period) :
    ∀ t u, chained t l u → l.Chain' (fun p q => p.stop = q.start) := by
  induction l with
  | nil => intro t u _; exact List.chain'_nil
  | cons p ps ih =>
      intro t u h
      cases ps with
      | nil => simp
      | cons q qs =>
          rw [List.chain'_cons]
          exact ⟨h.2.1.symm, ih p.stop u h.2⟩

theorem chained_snoc₂ (l : List Period) (t u e₁ e₂ : ℚ)
    (s₁ n₁ : String) (m₁ : ℚ) (s₂ n₂ : String) (m₂ : ℚ)
    (h : chained t l u) :
    chained t (l ++ [⟨s₁, u, e₁, n₁, m₁⟩, ⟨s₂, e₁, e₂, n₂, m₂⟩]) e₂ := by
  have : l ++ [(⟨s₁, u, e₁, n₁, m₁⟩ : Period), ⟨s₂, e₁, e₂, n₂, m₂⟩]
      = (l ++ [⟨s₁, u, e₁, n₁, m₁⟩]) ++ [⟨s₂, e₁, e₂, n₂, m₂⟩] := by
    rw [List.append_assoc]; rfl
  rw [this]
  exact chained_snoc _ _ _ _ _ _ _ (chained_snoc _ _ _ _ _ _ _ h)

theorem loopStep_chained (a : ℚ) (st : SimState)
    (h : chained a st.schedule st.t) :
    chained a (loopStep st).schedule (loopStep st).t := by
  unfold loopStep; split_ifs with h1 h2 h3
  · rw [breakStep_eq]; exact chained_snoc _ _ _ _ _ _ _ h
  · by_cases h50 : 50 < st.remaining_miles
    · by_cases h100 : 100 < st.remaining_miles
      · rw [dailyStep_eq_far st h100]
        exact chained_snoc₂ _ _ _ _ _ _ _ _ _ _ _ h
      · rw [dailyStep_eq_mid st h50 h100]
        exact chained_snoc _ _ _ _ _ _ _ h
    · rw [dailyStep_eq_near st h50]
      exact chained_snoc _ _ _ _ _ _ _ h
  · rw [restartStep_eq]; exact chained_snoc _ _ _ _ _ _ _ h
  · by_cases hf : fuelFires st
    · rw [driveStep_eq_fuel st hf]
      exact chained_snoc₂ _ _ _ _ _ _ _ _ _ _ _ h
    · rw [driveStep_eq_nofuel st hf]
      exact chained_snoc _ _ _ _ _ _ _ h

theorem loopRun_chained (n : Nat) (st : SimState) (a : ℚ)
    (h : chained a st.schedule st.t) :
    chained a (loopRun n st).schedule (loopRun n st).t := by
  induction n generalizing st with
  | zero => exact h
  | succ n ih =>
      rw [loopRun]
      by_cases hr : st.remaining_miles > 0
      · rw [if_pos hr]; exact ih (loopStep st) (loopStep_chained a st h)
      · rw [if_neg hr]; exact h

theorem preLoop_chained (segments : List Seg) (cyc now : ℚ) :
    chained now (preLoopState segments cyc now).schedule
      (preLoopState segments cyc now).t := by
  cases segments <;> simp [preLoopState, appendP, chained]

theorem postLoop_chained (a : ℚ) (st : SimState)
    (h : chained a st.schedule st.t) :
    chained a (postLoopState st).schedule
      (st.t + DROPOFF_MIN/60 + OFF_DUTY_RESET_HRS) := by
  unfold postLoopState appendP
  exact chained_snoc _ _ _ _ _ _ _ (chained_snoc _ _ _ _ _ _ _ h)

/-- C1. For every input on which `compute_schedule_for_route` returns, the
emitted schedule has no gaps and no overlaps: each adjacent pair of periods
`(p, q)` in the result's schedule list satisfies `p.end = q.start`. -/
theorem C1_no_gap_no_overlap (route : RouteGeoJson) (cyc now : ℚ) :
    ((compute_schedule_for_route route cyc now).schedule).Chain'
      (fun p q => p.stop = q.start) := by
  unfold compute_schedule_for_route
  cases hf : route.features with
  | nil => simp
  | cons f fs =>
      simp only
      apply chained_chain' _ now _
      exact postLoop_chained now _
        (loopRun_chained _ _ now (preLoop_chained f.segments cyc now))

/-- C2 is false as stated: with a single 715-mile first segment the
drive-to-pickup leg is emitted as one uncapped `Driving` period of 13 h, and
`driving_today` is 13 (> 11 h) the moment it has been evaluated — the
11 h/14 h cap is applied only to main-loop driving legs, not to the
drive-to-pickup leg. -/
theorem C2_counterexample :
    ((compute_schedule_for_route routeC2 0 0).schedule.getD 1 dfltPeriod).status
      = "Driving"
    ∧ ((compute_schedule_for_route routeC2 0 0).schedule.getD 1 dfltPeriod).stop
        - ((compute_schedule_for_route routeC2 0 0).schedule.getD 1 dfltPeriod).start
      = 13
    ∧ (preLoopState [⟨715 * MILE, 0⟩] 0 0).driving_today = 13
    ∧ ¬ ((13 : ℚ) ≤ MAX_DRIVE_HRS) := by with_unfolding_all decide

theorem driveStep_emits_getD (st : SimState) :
    (driveStep st).schedule.getD st.schedule.length dfltPeriod
      = drivePeriod st := by
  by_cases hf : fuelFires st
  · rw [driveStep_eq_fuel st hf]
    show (st.schedule ++ [drivePeriod st, fuelPeriod st]).getD
        st.schedule.length dfltPeriod = drivePeriod st
    rw [List.getD_append_right _ _ _ _ (Nat.le_refl _), Nat.sub_self,
      List.getD_cons_zero]
  · rw [driveStep_eq_nofuel st hf]
    show (st.schedule ++ [drivePeriod st]).getD
        st.schedule.length dfltPeriod = drivePeriod st
    rw [List.getD_append_right _ _ _ _ (Nat.le_refl _), Nat.sub_self,
      List.getD_cons_zero]

/-- C2 amended: every `Driving` period emitted by the main driving loop is
capped before emission — the drive branch emits the period
`drivePeriod st` of duration `hoursThisLeg st`, and that duration never
pushes `driving_today` beyond 11 h nor `on_duty_today` beyond 14 h. -/
theorem C2_amended_loop_caps (st : SimState) :
    (driveStep st).schedule.getD st.schedule.length dfltPeriod = drivePeriod st
    ∧ st.driving_today + hoursThisLeg st ≤ MAX_DRIVE_HRS
    ∧ st.on_duty_today + hoursThisLeg st ≤ MAX_ON_DUTY_HRS := by
  have hcap1 : hoursThisLeg st ≤ MAX_DRIVE_HRS - st.driving_today :=
    le_trans (min_le_right _ _) (min_le_left _ _)
  have hcap2 : hoursThisLeg st ≤ MAX_ON_DUTY_HRS - st.on_duty_today :=
    le_trans (min_le_right _ _) (min_le_right _ _)
  exact ⟨driveStep_emits_getD st, by linarith, by linarith⟩

/-- C5 is false as stated: a route whose (single) feature has an empty
segment list has zero segments, yet the result is not the empty degenerate
result — it still contains 4 periods (pre-trip, pickup, unload, rest),
though both totals are 0. -/
theorem C5_counterexample :
    (compute_schedule_for_route routeC5 0 0).schedule.length = 4
    ∧ ¬ (compute_schedule_for_route routeC5 0 0).schedule = []
    ∧ (compute_schedule_for_route routeC5 0 0).total_miles = 0
    ∧ (compute_schedule_for_route routeC5 0 0).estimated_drive_hours = 0 := by
  with_unfolding_all decide

/-- C5 amended: the defined empty degenerate case is an empty `features`
list — for it the function returns the empty result with zero totals and
no error. -/
theorem C5_amended (route : RouteGeoJson) (cyc now : ℚ)
    (h : route.features = []) :
    compute_schedule_for_route route cyc now =
      { schedule := [], total_miles := 0, estimated_drive_hours := 0 } := by
  unfold compute_schedule_for_route; rw [h]

/-- Witness for C5 amended at the concrete empty-features input. -/
theorem C5_amended_witness :
    (RouteGeoJson.mk []).features = []
    ∧ compute_schedule_for_route ⟨[]⟩ 5 7 =
        { schedule := [], total_miles := 0, estimated_drive_hours := 0 } :=
  ⟨rfl, C5_amended ⟨[]⟩ 5 7 rfl⟩

/-- C6 is false as stated: the split-rest period is emitted with the literal
status tag `"Sleeper"`, not `"SleeperBerth"`. -/
theorem C6_counterexample :
    ((compute_schedule_for_route routeC6 0 0).schedule.getD 15 dfltPeriod).note
      = "Sleeper berth (split rest)"
    ∧ ((compute_schedule_for_route routeC6 0 0).schedule.getD 15 dfltPeriod).status
      = "Sleeper"
    ∧ ¬ ((compute_schedule_for_route routeC6 0 0).schedule.getD 15 dfltPeriod).status
      = "SleeperBerth" := by with_unfolding_all decide

theorem loopStep_statusOK (st : SimState)
    (h : ∀ p ∈ st.schedule, statusOK p) :
    ∀ p ∈ (loopStep st).schedule, statusOK p := by
  unfold loopStep; split_ifs with h1 h2 h3
  · rw [breakStep_eq]; intro p hp
    rcases List.mem_append.mp hp with hp | hp
    · exact h p hp
    · rw [List.mem_singleton.mp hp]; right; right; left; rfl
  · by_cases h50 : 50 < st.remaining_miles
    · by_cases h100 : 100 < st.remaining_miles
      · rw [dailyStep_eq_far st h100]; intro p hp
        rcases List.mem_append.mp hp with hp | hp
        · exact h p hp
        · rcases List.mem_cons.mp hp with hp | hp
          · rw [hp]; right; right; right; rfl
          · rw [List.mem_singleton.mp hp]; right; right; left; rfl
      · rw [dailyStep_eq_mid st h50 h100]; intro p hp
        rcases List.mem_append.mp hp with hp | hp
        · exact h p hp
        · rw [List.mem_singleton.mp hp]; right; right; right; rfl
    · rw [dailyStep_eq_near st h50]; intro p hp
      rcases List.mem_append.mp hp with hp | hp
      · exact h p hp
      · rw [List.mem_singleton.mp hp]; right; right; left; rfl
  · rw [restartStep_eq]; intro p hp
    rcases List.mem_append.mp hp with hp | hp
    · exact h p hp
    · rw [List.mem_singleton.mp hp]; right; right; left; rfl
  · by_cases hf : fuelFires st
    · rw [driveStep_eq_fuel st hf]; intro p hp
      rcases List.mem_append.mp hp with hp | hp
      · exact h p hp
      · rcases List.mem_cons.mp hp with hp | hp
        · rw [hp]; left; rfl
        · rw [List.mem_singleton.mp hp]; right; left; rfl
    · rw [driveStep_eq_nofuel st hf]; intro p hp
      rcases List.mem_append.mp hp with hp | hp
      · exact h p hp
      · rw [List.mem_singleton.mp hp]; left; rfl

theorem loopRun_statusOK (n : Nat) (st : SimState)
    (h : ∀ p ∈ st.schedule, statusOK p) :
    ∀ p ∈ (loopRun n st).schedule, statusOK p := by
  induction n generalizing st with
  | zero => exact h
  | succ n ih =>
      rw [loopRun]
      by_cases hr : st.remaining_miles > 0
      · rw [if_pos hr]; exact ih (loopStep st) (loopStep_statusOK st h)
      · rw [if_neg hr]; exact h

theorem preLoop_statusOK (segments : List Seg) (cyc now : ℚ) :
    ∀ p ∈ (preLoopState segments cyc now).schedule, statusOK p := by
  cases segments with
  | nil =>
      intro p hp
      simp [preLoopState, appendP] at hp
      rcases hp with hp | hp <;> simp [hp, statusOK]
  | cons s rest =>
      intro p hp
      simp [preLoopState, appendP] at hp
      rcases hp with hp | hp | hp <;> simp [hp, statusOK]

theorem postLoop_statusOK (st : SimState)
    (h : ∀ p ∈ st.schedule, statusOK p) :
    ∀ p ∈ (postLoopState st).schedule, statusOK p := by
  intro p hp
  simp only [postLoopState, appendP, List.append_assoc, List.mem_append] at hp
  rcases hp with hp | hp
  · exact h p hp
  · simp at hp
    rcases hp with hp | hp <;> simp [hp, statusOK]

/-- C6 amended: every period carries a status tag drawn from exactly the
four literals `{"Driving", "OnDutyNotDriving", "OffDuty", "Sleeper"}`; the
split-rest period's tag is `"Sleeper"` (the code's literal for the
sleeper-berth status), not `"SleeperBerth"`. -/
theorem C6_amended (route : RouteGeoJson) (cyc now : ℚ) :
    ∀ p ∈ (compute_schedule_for_route route cyc now).schedule, statusOK p := by
  unfold compute_schedule_for_route
  cases hf : route.features with
  | nil => simp
  | cons f fs =>
      simp only
      exact postLoop_statusOK _
        (loopRun_statusOK _ _ (preLoop_statusOK f.segments cyc now))

/-- Witness for C6 amended at a concrete period of a concrete run. -/
theorem C6_amended_witness :
    ((compute_schedule_for_route routeC6 0 0).schedule.getD 15 dfltPeriod
        ∈ (compute_schedule_for_route routeC6 0 0).schedule)
    ∧ statusOK
        ((compute_schedule_for_route routeC6 0 0).schedule.getD 15 dfltPeriod) :=
  ⟨by with_unfolding_all decide, C6_amended routeC6 0 0 _ (by with_unfolding_all decide)⟩

/-- C9. The drive-to-pickup leg leaves `miles_until_fuel` unchanged: after
the whole pre-loop phase (pre-trip, pickup leg, pickup) the fuel counter is
still the full `FUEL_RANGE_MILES`, and no loop branch other than the drive
branch touches it. -/
theorem C9_fuel_frame (segments : List Seg) (cyc now : ℚ) :
    (preLoopState segments cyc now).miles_until_fuel = FUEL_RANGE_MILES
    ∧ ∀ st : SimState,
        (breakStep st).miles_until_fuel = st.miles_until_fuel
        ∧ (dailyStep st).miles_until_fuel = st.miles_until_fuel
        ∧ (restartStep st).miles_until_fuel = st.miles_until_fuel := by
  constructor
  · cases segments <;> rfl
  · intro st
    refine ⟨rfl, ?_, rfl⟩
    by_cases h50 : 50 < st.remaining_miles
    · by_cases h100 : 100 < st.remaining_miles
      · rw [dailyStep_eq_far st h100]
      · rw [dailyStep_eq_mid st h50 h100]
    · rw [dailyStep_eq_near st h50]

theorem ceil_drop (r : ℚ) (hr : 0 < r) :
    ⌈(r - min r AVG_SPEED_MPH) / AVG_SPEED_MPH⌉ = ⌈r / AVG_SPEED_MPH⌉ - 1 := by
  unfold AVG_SPEED_MPH
  rcases le_or_lt r 55 with h | h
  · rw [min_eq_left h, sub_self, zero_div]
    have hpos : (0:ℚ) < r / 55 := div_pos hr (by norm_num)
    have h1 : ⌈r / (55:ℚ)⌉ = 1 := by
      rw [Int.ceil_eq_iff]
      constructor
      · push_cast; linarith
      · push_cast
        rw [div_le_one (by norm_num : (0:ℚ) < 55)]
        exact h
    rw [h1]
    simp
  · rw [min_eq_right (le_of_lt h)]
    have heq : (r - 55) / (55:ℚ) = r / 55 - 1 := by ring
    rw [heq, Int.ceil_sub_one]

theorem simMeasure_decreases (st : SimState)
    (hr : 0 < st.remaining_miles) :
    simMeasure (loopStep st) < simMeasure st := by
  have hno8 : ¬ ((0:ℚ) ≥ BREAK_AFTER_HRS) := by norm_num [BREAK_AFTER_HRS]
  have hno11 : ¬ ((0:ℚ) ≥ MAX_DRIVE_HRS ∨ (0:ℚ) ≥ MAX_ON_DUTY_HRS) := by
    norm_num [MAX_DRIVE_HRS, MAX_ON_DUTY_HRS]
  have hno70 : ¬ ((0:ℚ) ≥ CYCLE_LIMIT_HRS) := by norm_num [CYCLE_LIMIT_HRS]
  unfold loopStep; split_ifs with h1 h2 h3
  · rw [breakStep_eq]
    simp only [simMeasure]
    rw [if_pos h1, if_neg hno8]
    omega
  · have base : ∀ st' : SimState,
        st'.remaining_miles = st.remaining_miles →
        st'.driving_since_break = 0 → st'.driving_today = 0 →
        st'.on_duty_today = 0 →
        simMeasure st' < simMeasure st := by
      intro st' he hd hdt ho
      simp only [simMeasure]
      rw [he, hd, hdt, ho, if_neg h1, if_pos h2, if_neg hno8, if_neg hno11]
      split_ifs <;> omega
    by_cases h50 : 50 < st.remaining_miles
    · by_cases h100 : 100 < st.remaining_miles
      · rw [dailyStep_eq_far st h100]; exact base _ rfl rfl rfl rfl
      · rw [dailyStep_eq_mid st h50 h100]; exact base _ rfl rfl rfl rfl
    · rw [dailyStep_eq_near st h50]; exact base _ rfl rfl rfl rfl
  · rw [restartStep_eq]
    simp only [simMeasure]
    rw [if_pos h3, if_neg hno70]
    omega
  · have hc : ⌈(st.remaining_miles - milesThisLeg st) / AVG_SPEED_MPH⌉
        = ⌈st.remaining_miles / AVG_SPEED_MPH⌉ - 1 := by
      unfold milesThisLeg; exact ceil_drop _ hr
    have hcpos : 0 < ⌈st.remaining_miles / AVG_SPEED_MPH⌉ :=
      Int.ceil_pos.mpr (div_pos hr (by norm_num [AVG_SPEED_MPH]))
    have hfin : ∀ st' : SimState,
        st'.remaining_miles = st.remaining_miles - milesThisLeg st →
        simMeasure st' < simMeasure st := by
      intro st' he
      simp only [simMeasure]
      rw [he, hc, if_neg h1, if_neg h2, if_neg h3]
      split_ifs <;> omega
    by_cases hf : fuelFires st
    · rw [driveStep_eq_fuel st hf]; exact hfin _ rfl
    · rw [driveStep_eq_nofuel st hf]; exact hfin _ rfl

theorem loopRun_done (n : Nat) (st : SimState)
    (h : simMeasure st < n) :
    ¬ 0 < (loopRun n st).remaining_miles := by
  induction n generalizing st with
  | zero => omega
  | succ n ih =>
      rw [loopRun]
      by_cases hr : st.remaining_miles > 0
      · rw [if_pos hr]
        exact ih (loopStep st)
          (by have := simMeasure_decreases st hr; omega)
      · rw [if_neg hr]
        exact hr

/-- C7 is false as stated (in its per-iteration clause): with a 687.5-mile
pickup leg `on_duty_today` is exactly 14 h when the daily-limit branch
fires, so that iteration emits a single zero-duration `Sleeper` period and
leaves `remaining_miles` unchanged — it neither strictly decreases
`remaining_miles` nor emits a period of strictly positive duration. -/
theorem C7_counterexample :
    0 < (loopStep (preLoopState [⟨(1375/2) * MILE, 0⟩, ⟨60 * MILE, 0⟩] 0 0)).remaining_miles
    ∧ (loopStep (loopStep (preLoopState [⟨(1375/2) * MILE, 0⟩, ⟨60 * MILE, 0⟩] 0 0))).remaining_miles
      = (loopStep (preLoopState [⟨(1375/2) * MILE, 0⟩, ⟨60 * MILE, 0⟩] 0 0)).remaining_miles
    ∧ (loopStep (loopStep (preLoopState [⟨(1375/2) * MILE, 0⟩, ⟨60 * MILE, 0⟩] 0 0))).schedule
      = (loopStep (preLoopState [⟨(1375/2) * MILE, 0⟩, ⟨60 * MILE, 0⟩] 0 0)).schedule
        ++ [⟨"Sleeper", 29/2, 29/2, "Sleeper berth (split rest)", 1375/2⟩] := by
  with_unfolding_all decide

/-- C7 amended: the main loop always terminates — running it with the fuel
budget `simMeasure st + 1` that `compute_schedule_for_route` uses drives
`remaining_miles` to ≤ 0 from any state, because every iteration strictly
decreases `simMeasure` (an iteration either strictly decreases
`remaining_miles`, or emits a positive-duration rest/break period, or — in
the corner case `on_duty_today ≥ 14` exactly — emits a zero- or
negative-duration sleeper while zeroing the duty counters, which still
decreases the measure). -/
theorem C7_amended_terminates (st : SimState) :
    (loopRun (simMeasure st + 1) st).remaining_miles ≤ 0 := by
  have := loopRun_done (simMeasure st + 1) st (by omega)
  linarith [not_lt.mp this]

/-- C4 is false as stated: with non-negative inputs (a 715-mile first
segment, then 60 miles) the split-sleeper-berth period is emitted with
duration `min(7h, 14h − 14.5h) = −0.5h`, i.e. `end < start`. -/
theorem C4_counterexample :
    ((compute_schedule_for_route routeC4 0 0).schedule.getD 4 dfltPeriod).note
      = "Sleeper berth (split rest)"
    ∧ ((compute_schedule_for_route routeC4 0 0).schedule.getD 4 dfltPeriod).stop
      < ((compute_schedule_for_route routeC4 0 0).schedule.getD 4 dfltPeriod).start := by
  with_unfolding_all decide

theorem loopStep_nonnegDur (st : SimState) (hr : 0 < st.remaining_miles)
    (h : nonnegDur st) : nonnegDur (loopStep st) := by
  unfold loopStep; split_ifs with h1 h2 h3
  · rw [breakStep_eq]; intro p hp hn
    rcases List.mem_append.mp hp with hp | hp
    · exact h p hp hn
    · rw [List.mem_singleton.mp hp]; simp only; linarith
  · by_cases h50 : 50 < st.remaining_miles
    · by_cases h100 : 100 < st.remaining_miles
      · rw [dailyStep_eq_far st h100]; intro p hp hn
        rcases List.mem_append.mp hp with hp | hp
        · exact h p hp hn
        · rcases List.mem_cons.mp hp with hp | hp
          · rw [hp] at hn; exact absurd rfl hn
          · rw [List.mem_singleton.mp hp]
            simp only [complPeriod]
            have : (0:ℚ) ≤ min 3 OFF_DUTY_RESET_HRS := by
              norm_num [OFF_DUTY_RESET_HRS]
            linarith
      · rw [dailyStep_eq_mid st h50 h100]; intro p hp hn
        rcases List.mem_append.mp hp with hp | hp
        · exact h p hp hn
        · rw [List.mem_singleton.mp hp] at hn; exact absurd rfl hn
    · rw [dailyStep_eq_near st h50]; intro p hp hn
      rcases List.mem_append.mp hp with hp | hp
      · exact h p hp hn
      · rw [List.mem_singleton.mp hp]; simp only
        norm_num [OFF_DUTY_RESET_HRS]
  · rw [restartStep_eq]; intro p hp hn
    rcases List.mem_append.mp hp with hp | hp
    · exact h p hp hn
    · rw [List.mem_singleton.mp hp]; simp only
      norm_num [RESTART_OFF_DUTY_HRS]
  · push_neg at h2
    have hhle : 0 ≤ hoursThisLeg st := by
      have hm : 0 < milesThisLeg st := by
        unfold milesThisLeg AVG_SPEED_MPH
        exact lt_min hr (by norm_num)
      refine le_min ?_ (le_min ?_ ?_)
      · unfold AVG_SPEED_MPH
        positivity
      · unfold MAX_DRIVE_HRS at h2 ⊢
        linarith [h2.1]
      · unfold MAX_ON_DUTY_HRS at h2 ⊢
        linarith [h2.2]
    by_cases hf : fuelFires st
    · rw [driveStep_eq_fuel st hf]; intro p hp hn
      rcases List.mem_append.mp hp with hp | hp
      · exact h p hp hn
      · rcases List.mem_cons.mp hp with hp | hp
        · rw [hp]; simp only [drivePeriod]; linarith
        · rw [List.mem_singleton.mp hp]; simp only [fuelPeriod]
          norm_num [FUEL_STOP_MIN]
    · rw [driveStep_eq_nofuel st hf]; intro p hp hn
      rcases List.mem_append.mp hp with hp | hp
      · exact h p hp hn
      · rw [List.mem_singleton.mp hp]; simp only [drivePeriod]; linarith

theorem loopRun_nonnegDur (n : Nat) (st : SimState)
    (h : nonnegDur st) : nonnegDur (loopRun n st) := by
  induction n generalizing st with
  | zero => exact h
  | succ n ih =>
      rw [loopRun]
      by_cases hr : st.remaining_miles > 0
      · rw [if_pos hr]; exact ih (loopStep st) (loopStep_nonnegDur st hr h)
      · rw [if_neg hr]; exact h

theorem preLoop_nonnegDur (segments : List Seg) (cyc now : ℚ)
    (hd : ∀ s ∈ segments, 0 ≤ s.distance) :
    nonnegDur (preLoopState segments cyc now) := by
  cases segments with
  | nil =>
      intro p hp _
      simp [preLoopState, appendP] at hp
      rcases hp with hp | hp <;> · rw [hp]; simp only; norm_num [PICKUP_MIN]
  | cons s rest =>
      have hs : 0 ≤ s.distance := hd s (List.mem_cons_self s rest)
      have hleg : 0 ≤ s.distance / MILE / AVG_SPEED_MPH := by
        unfold MILE AVG_SPEED_MPH
        positivity
      intro p hp _
      simp [preLoopState, appendP] at hp
      rcases hp with hp | hp | hp <;>
        · rw [hp]; simp only; norm_num [PICKUP_MIN]
          try linarith

theorem postLoop_nonnegDur (st : SimState) (h : nonnegDur st) :
    nonnegDur (postLoopState st) := by
  intro p hp hn
  simp only [postLoopState, appendP, List.append_assoc, List.mem_append] at hp
  rcases hp with hp | hp
  · exact h p hp hn
  · simp at hp
    rcases hp with hp | hp <;>
      · rw [hp]; simp only; norm_num [DROPOFF_MIN, OFF_DUTY_RESET_HRS]

/-- C4 amended: with non-negative inputs every emitted period other than
the split-sleeper-berth period satisfies `end ≥ start`; the split sleeper
has duration `min(7h, 14h − on_duty_today)` and satisfies `end ≥ start`
exactly when `on_duty_today ≤ 14h` at the moment it is emitted (which
non-negative inputs do not guarantee — see the counterexample). -/
theorem C4_amended :
    (∀ (route : RouteGeoJson) (cyc now : ℚ),
      (∀ s ∈ segsOf route, 0 ≤ s.distance) →
      ∀ p ∈ (compute_schedule_for_route route cyc now).schedule,
        p.note ≠ "Sleeper berth (split rest)" → p.start ≤ p.stop)
    ∧ (∀ st : SimState, st.on_duty_today ≤ MAX_ON_DUTY_HRS →
        50 < st.remaining_miles →
        ((dailyStep st).schedule.getD st.schedule.length dfltPeriod).start
          ≤ ((dailyStep st).schedule.getD st.schedule.length dfltPeriod).stop) := by
  constructor
  · intro route cyc now hd
    unfold compute_schedule_for_route
    cases hf : route.features with
    | nil => simp
    | cons f fs =>
        simp only
        have hd' : ∀ s ∈ f.segments, 0 ≤ s.distance := by
          intro s hs
          exact hd s (by rw [segsOf, hf]; exact hs)
        exact postLoop_nonnegDur _
          (loopRun_nonnegDur _ _ (preLoop_nonnegDur f.segments cyc now hd'))
  · intro st hod h50
    have hs1 : (0:ℚ) ≤ min 7 (MAX_ON_DUTY_HRS - st.on_duty_today) :=
      le_min (by norm_num) (by linarith)
    by_cases h100 : 100 < st.remaining_miles
    · rw [dailyStep_eq_far st h100]
      show ((st.schedule ++ [sleeperPeriod st, complPeriod st]).getD
          st.schedule.length dfltPeriod).start ≤ _
      rw [List.getD_append_right _ _ _ _ (Nat.le_refl _), Nat.sub_self,
        List.getD_cons_zero]
      simp only [sleeperPeriod]
      linarith
    · rw [dailyStep_eq_mid st h50 h100]
      show ((st.schedule ++ [sleeperPeriod st]).getD
          st.schedule.length dfltPeriod).start ≤ _
      rw [List.getD_append_right _ _ _ _ (Nat.le_refl _), Nat.sub_self,
        List.getD_cons_zero]
      simp only [sleeperPeriod]
      linarith

/-- Witness for C4 amended: a concrete non-sleeper period of a concrete
run, and the sleeper emitted by `dailyStep` from a concrete state with
`on_duty_today ≤ 14`. -/
theorem C4_amended_witness :
    ((∀ s ∈ segsOf routeC6, 0 ≤ s.distance)
      ∧ ((compute_schedule_for_route routeC6 0 0).schedule.getD 0 dfltPeriod).start
        ≤ ((compute_schedule_for_route routeC6 0 0).schedule.getD 0 dfltPeriod).stop)
    ∧ (((⟨0, [], 0, 11, 5, 0, 0, 1000, 60⟩ : SimState).on_duty_today ≤ MAX_ON_DUTY_HRS)
      ∧ ((dailyStep ⟨0, [], 0, 11, 5, 0, 0, 1000, 60⟩).schedule.getD 0 dfltPeriod).start
        ≤ ((dailyStep ⟨0, [], 0, 11, 5, 0, 0, 1000, 60⟩).schedule.getD 0 dfltPeriod).stop) :=
  ⟨⟨by with_unfolding_all decide,
    C4_amended.1 routeC6 0 0 (by with_unfolding_all decide)
      ((compute_schedule_for_route routeC6 0 0).schedule.getD 0 dfltPeriod)
      (by with_unfolding_all decide) (by with_unfolding_all decide)⟩,
   ⟨by norm_num [MAX_ON_DUTY_HRS],
    C4_amended.2 ⟨0, [], 0, 11, 5, 0, 0, 1000, 60⟩
      (by norm_num [MAX_ON_DUTY_HRS]) (by norm_num)⟩⟩

theorem chain_snoc_miles (l : List Period) (q : Period) (m : ℚ)
    (hc : l.Chain' milesRel) (hl : lastLink l m)
    (hq : q.miles_since_start = m) :
    (l ++ [q]).Chain' milesRel := by
  rw [List.chain'_append]
  refine ⟨hc, List.chain'_singleton q, ?_⟩
  intro x hx y hy
  simp only [List.head?_cons, Option.mem_def, Option.some.injEq] at hy
  subst hy
  have hx' := hl x (by simpa using hx)
  constructor
  · intro hD; rw [hq]; exact hx'.1 hD
  · intro hnD; rw [hq]; exact (hx'.2 hnD).symm

theorem lastLink_snoc (l : List Period) (q : Period) (m : ℚ)
    (h1 : q.status = "Driving" → q.miles_since_start ≤ m)
    (h2 : q.status ≠ "Driving" → q.miles_since_start = m) :
    lastLink (l ++ [q]) m := by
  intro p hp
  rw [List.getLast?_concat] at hp
  cases hp
  exact ⟨h1, h2⟩

theorem milesInv_snoc_still (l : List Period) (q : Period) (m : ℚ)
    (hc : l.Chain' milesRel) (hl : lastLink l m)
    (hq : q.miles_since_start = m) (hnD : q.status ≠ "Driving") :
    (l ++ [q]).Chain' milesRel ∧ lastLink (l ++ [q]) m :=
  ⟨chain_snoc_miles l q m hc hl hq,
   lastLink_snoc l q m (fun h => absurd h hnD) (fun _ => hq)⟩

theorem chainlink_snoc₂_still (l : List Period) (q1 q2 : Period) (m : ℚ)
    (hc : l.Chain' milesRel) (hl : lastLink l m)
    (h1 : q1.miles_since_start = m) (h2 : q2.miles_since_start = m)
    (hn1 : q1.status ≠ "Driving") (hn2 : q2.status ≠ "Driving") :
    (l ++ [q1, q2]).Chain' milesRel ∧ lastLink (l ++ [q1, q2]) m := by
  have hsplit : l ++ [q1, q2] = (l ++ [q1]) ++ [q2] := by
    rw [List.append_assoc]; rfl
  rw [hsplit]
  have s1 := milesInv_snoc_still l q1 m hc hl h1 hn1
  exact milesInv_snoc_still _ q2 m s1.1 s1.2 h2 hn2

theorem chainlink_snoc₂_drive (l : List Period) (q1 q2 : Period) (m m' : ℚ)
    (hc : l.Chain' milesRel) (hl : lastLink l m)
    (h1 : q1.miles_since_start = m) (hD : q1.status = "Driving")
    (hmm : m ≤ m') (h2 : q2.miles_since_start = m')
    (hn2 : q2.status ≠ "Driving") :
    (l ++ [q1, q2]).Chain' milesRel ∧ lastLink (l ++ [q1, q2]) m' := by
  have hsplit : l ++ [q1, q2] = (l ++ [q1]) ++ [q2] := by
    rw [List.append_assoc]; rfl
  rw [hsplit]
  have hc1 : (l ++ [q1]).Chain' milesRel := chain_snoc_miles l q1 m hc hl h1
  have hl1 : lastLink (l ++ [q1]) m' :=
    lastLink_snoc l q1 m' (fun _ => by rw [h1]; exact hmm)
      (fun hn => absurd hD hn)
  exact milesInv_snoc_still _ q2 m' hc1 hl1 h2 hn2

theorem loopStep_milesInv (st : SimState) (hr : 0 < st.remaining_miles)
    (h : milesInv st) : milesInv (loopStep st) := by
  obtain ⟨hc, hl⟩ := h
  have hm : 0 ≤ milesThisLeg st := by
    unfold milesThisLeg AVG_SPEED_MPH
    exact le_of_lt (lt_min hr (by norm_num))
  unfold loopStep; split_ifs with h1 h2 h3
  · rw [breakStep_eq]
    exact milesInv_snoc_still _ _ _ hc hl rfl (by simp)
  · by_cases h50 : 50 < st.remaining_miles
    · by_cases h100 : 100 < st.remaining_miles
      · rw [dailyStep_eq_far st h100]
        exact chainlink_snoc₂_still st.schedule (sleeperPeriod st)
          (complPeriod st) st.miles_driven hc hl rfl rfl
          (by simp [sleeperPeriod]) (by simp [complPeriod])
      · rw [dailyStep_eq_mid st h50 h100]
        exact milesInv_snoc_still _ _ _ hc hl rfl (by simp [sleeperPeriod])
    · rw [dailyStep_eq_near st h50]
      exact milesInv_snoc_still _ _ _ hc hl rfl (by simp)
  · rw [restartStep_eq]
    exact milesInv_snoc_still _ _ _ hc hl rfl (by simp)
  · by_cases hf : fuelFires st
    · rw [driveStep_eq_fuel st hf]
      exact chainlink_snoc₂_drive st.schedule (drivePeriod st) (fuelPeriod st)
        st.miles_driven (st.miles_driven + milesThisLeg st) hc hl rfl rfl
        (by linarith) rfl (by simp [fuelPeriod])
    · rw [driveStep_eq_nofuel st hf]
      refine ⟨chain_snoc_miles _ _ _ hc hl rfl, ?_⟩
      exact lastLink_snoc _ _ _ (fun _ => by simp [drivePeriod]; linarith)
        (fun hn => absurd rfl hn)

theorem loopRun_milesInv (n : Nat) (st : SimState)
    (h : milesInv st) : milesInv (loopRun n st) := by
  induction n generalizing st with
  | zero => exact h
  | succ n ih =>
      rw [loopRun]
      by_cases hr : st.remaining_miles > 0
      · rw [if_pos hr]; exact ih (loopStep st) (loopStep_milesInv st hr h)
      · rw [if_neg hr]; exact h

theorem preLoop_milesInv (segments : List Seg) (cyc now : ℚ)
    (hd : ∀ s ∈ segments, 0 ≤ s.distance) :
    milesInv (preLoopState segments cyc now) := by
  cases segments with
  | nil =>
      constructor
      · simp [preLoopState, appendP]
        simp [milesRel]
      · intro p hp
        simp [preLoopState, appendP] at hp
        cases hp
        simp [preLoopState, appendP]
  | cons s rest =>
      have hs : 0 ≤ s.distance := hd s (List.mem_cons_self s rest)
      have hmi : 0 ≤ s.distance / MILE := by
        unfold MILE
        positivity
      constructor
      · simp [preLoopState, appendP]
        constructor
        · simp [milesRel]
        · simp [milesRel]
          linarith
      · intro p hp
        simp [preLoopState, appendP] at hp
        cases hp
        simp [preLoopState, appendP]

theorem postLoop_schedule (st : SimState) :
    (postLoopState st).schedule = st.schedule ++
      [⟨"OnDutyNotDriving", st.t, st.t + DROPOFF_MIN/60, "Unload cargo",
        st.miles_driven⟩,
       ⟨"OffDuty", st.t + DROPOFF_MIN/60,
        st.t + DROPOFF_MIN/60 + OFF_DUTY_RESET_HRS, "10 hr rest after trip",
        st.miles_driven⟩] := by
  simp [postLoopState, appendP]

theorem postLoop_milesInv (st : SimState) (h : milesInv st) :
    milesInv (postLoopState st) := by
  obtain ⟨hc, hl⟩ := h
  have hres := chainlink_snoc₂_still st.schedule
    ⟨"OnDutyNotDriving", st.t, st.t + DROPOFF_MIN/60, "Unload cargo",
      st.miles_driven⟩
    ⟨"OffDuty", st.t + DROPOFF_MIN/60,
      st.t + DROPOFF_MIN/60 + OFF_DUTY_RESET_HRS, "10 hr rest after trip",
      st.miles_driven⟩
    st.miles_driven hc hl rfl rfl (by simp) (by simp)
  constructor
  · rw [postLoop_schedule]; exact hres.1
  · rw [postLoop_schedule]; exact hres.2

/-- C10. Each period's cumulative-miles annotation is the value of
`miles_driven` at the moment the period is appended, before that period's
own miles are added: (i) across the whole schedule a non-`Driving` period
never changes the annotation of its successor while a `Driving` period can
only raise it (so the sequence is non-decreasing); (ii) the drive-to-pickup
`Driving` period at index 1 carries annotation 0 — its own miles excluded;
(iii) the drive branch appends the `Driving` period annotated with the
pre-leg `miles_driven` and only afterwards adds the leg's miles. -/
theorem C10_miles_counter (route : RouteGeoJson) (cyc now : ℚ)
    (hd : ∀ s ∈ segsOf route, 0 ≤ s.distance) :
    ((compute_schedule_for_route route cyc now).schedule).Chain' milesRel
    ∧ (segsOf route ≠ [] →
        ((compute_schedule_for_route route cyc now).schedule.getD 1 dfltPeriod).status
          = "Driving"
        ∧ ((compute_schedule_for_route route cyc now).schedule.getD 1
            dfltPeriod).miles_since_start = 0)
    ∧ (∀ st : SimState,
        (driveStep st).schedule.getD st.schedule.length dfltPeriod
          = drivePeriod st
        ∧ (drivePeriod st).miles_since_start = st.miles_driven
        ∧ (driveStep st).miles_driven = st.miles_driven + milesThisLeg st) := by
  refine ⟨?_, ?_, ?_⟩
  · unfold compute_schedule_for_route
    cases hf : route.features with
    | nil => simp
    | cons f fs =>
        simp only
        have hd' : ∀ s ∈ f.segments, 0 ≤ s.distance := by
          intro s hs
          exact hd s (by rw [segsOf, hf]; exact hs)
        exact (postLoop_milesInv _
          (loopRun_milesInv _ _ (preLoop_milesInv f.segments cyc now hd'))).1
  · intro hne
    unfold compute_schedule_for_route
    cases hf : route.features with
    | nil =>
        exfalso; apply hne
        unfold segsOf; rw [hf]
    | cons f fs =>
        simp only
        have hsg : segsOf route = f.segments := by
          unfold segsOf; rw [hf]
        cases hseg : f.segments with
        | nil =>
            exfalso; apply hne
            rw [hsg, hseg]
        | cons s rest =>
            have hA : (preLoopState (s :: rest) cyc now).schedule.length = 3 := by
              simp [preLoopState, appendP]
            rw [postLoop_schedule, loopRun_schedule]
            rw [List.getD_append _ _ _ 1
              (by rw [List.length_append, hA]; omega)]
            rw [List.getD_append _ _ _ 1 (by rw [hA]; omega)]
            constructor
            · simp [preLoopState, appendP]
            · simp [preLoopState, appendP]
  · intro st
    exact ⟨driveStep_emits_getD st, rfl, by
      by_cases hf : fuelFires st
      · rw [driveStep_eq_fuel st hf]
      · rw [driveStep_eq_nofuel st hf]⟩

/-- Witness for C10 at a concrete input with non-negative distances. -/
theorem C10_miles_counter_witness :
    (∀ s ∈ segsOf routeC6, 0 ≤ s.distance)
    ∧ ((compute_schedule_for_route routeC6 0 0).schedule).Chain' milesRel :=
  ⟨by with_unfolding_all decide, (C10_miles_counter routeC6 0 0
    (by with_unfolding_all decide)).1⟩

theorem breakStep_shift (d : ℚ) (st : SimState) :
    breakStep (shiftState d st) = shiftState d (breakStep st) := by
  rw [breakStep_eq, breakStep_eq]
  unfold shiftState shiftPeriod
  simp [SimState.mk.injEq, Period.mk.injEq]
  repeat' apply And.intro
  all_goals ring

theorem restartStep_shift (d : ℚ) (st : SimState) :
    restartStep (shiftState d st) = shiftState d (restartStep st) := by
  rw [restartStep_eq, restartStep_eq]
  unfold shiftState shiftPeriod
  simp [SimState.mk.injEq, Period.mk.injEq]
  repeat' apply And.intro
  all_goals ring

theorem dailyStep_shift (d : ℚ) (st : SimState) :
    dailyStep (shiftState d st) = shiftState d (dailyStep st) := by
  by_cases h50 : 50 < st.remaining_miles
  · by_cases h100 : 100 < st.remaining_miles
    · rw [dailyStep_eq_far _ h100, dailyStep_eq_far _ (by exact h100)]
      unfold shiftState shiftPeriod sleeperPeriod complPeriod
      simp [SimState.mk.injEq, Period.mk.injEq]
      repeat' apply And.intro
      all_goals ring
    · rw [dailyStep_eq_mid _ h50 h100, dailyStep_eq_mid _ (by exact h50) (by exact h100)]
      unfold shiftState shiftPeriod sleeperPeriod
      simp [SimState.mk.injEq, Period.mk.injEq]
      repeat' apply And.intro
      all_goals ring
  · rw [dailyStep_eq_near _ h50, dailyStep_eq_near _ (by exact h50)]
    unfold shiftState shiftPeriod
    simp [SimState.mk.injEq, Period.mk.injEq]
    repeat' apply And.intro
    all_goals ring

theorem driveStep_shift (d : ℚ) (st : SimState) :
    driveStep (shiftState d st) = shiftState d (driveStep st) := by
  have hm : milesThisLeg (shiftState d st) = milesThisLeg st := rfl
  have hh : hoursThisLeg (shiftState d st) = hoursThisLeg st := rfl
  by_cases hf : fuelFires st
  · rw [driveStep_eq_fuel _ hf, driveStep_eq_fuel _ (by exact hf)]
    unfold drivePeriod fuelPeriod
    rw [hm, hh]
    unfold shiftState shiftPeriod
    simp [SimState.mk.injEq, Period.mk.injEq]
    repeat' apply And.intro
    all_goals ring
  · rw [driveStep_eq_nofuel _ hf, driveStep_eq_nofuel _ (by exact hf)]
    unfold drivePeriod
    rw [hm, hh]
    unfold shiftState shiftPeriod
    simp [SimState.mk.injEq, Period.mk.injEq]
    repeat' apply And.intro
    all_goals ring

theorem loopStep_shift (d : ℚ) (st : SimState) :
    loopStep (shiftState d st) = shiftState d (loopStep st) := by
  by_cases h1 : st.driving_since_break ≥ BREAK_AFTER_HRS
  · rw [loopStep_break _ h1, loopStep_break _ (by exact h1), breakStep_shift]
  · by_cases h2 : st.driving_today ≥ MAX_DRIVE_HRS
        ∨ st.on_duty_today ≥ MAX_ON_DUTY_HRS
    · rw [loopStep_daily _ h1 h2, loopStep_daily _ (by exact h1) (by exact h2),
        dailyStep_shift]
    · by_cases h3 : st.cycle_used ≥ CYCLE_LIMIT_HRS
      · rw [loopStep_restart _ h1 h2 h3,
          loopStep_restart _ (by exact h1) (by exact h2) (by exact h3),
          restartStep_shift]
      · rw [loopStep_drive _ h1 h2 h3,
          loopStep_drive _ (by exact h1) (by exact h2) (by exact h3),
          driveStep_shift]

theorem loopRun_shift (d : ℚ) (n : Nat) (st : SimState) :
    loopRun n (shiftState d st) = shiftState d (loopRun n st) := by
  induction n generalizing st with
  | zero => rfl
  | succ n ih =>
      rw [loopRun, loopRun]
      by_cases hr : st.remaining_miles > 0
      · rw [if_pos hr, if_pos (by exact hr : (shiftState d st).remaining_miles > 0),
          loopStep_shift, ih]
      · rw [if_neg hr, if_neg (by exact hr : ¬ (shiftState d st).remaining_miles > 0)]

theorem simMeasure_shift (d : ℚ) (st : SimState) :
    simMeasure (shiftState d st) = simMeasure st := rfl

theorem preLoop_shift (segments : List Seg) (cyc now d : ℚ) :
    preLoopState segments cyc (now + d) =
      shiftState d (preLoopState segments cyc now) := by
  cases segments with
  | nil =>
      unfold preLoopState appendP shiftState shiftPeriod
      simp [SimState.mk.injEq, Period.mk.injEq]
      repeat' apply And.intro
      all_goals ring
  | cons s rest =>
      unfold preLoopState appendP shiftState shiftPeriod
      simp [SimState.mk.injEq, Period.mk.injEq]
      repeat' apply And.intro
      all_goals ring

theorem postLoop_shift (d : ℚ) (st : SimState) :
    postLoopState (shiftState d st) = shiftState d (postLoopState st) := by
  unfold postLoopState appendP shiftState shiftPeriod
  simp [SimState.mk.injEq, Period.mk.injEq]
  repeat' apply And.intro
  all_goals ring

/-- C8 is false as stated: the code reads the wall clock
(`datetime.utcnow()`, line 36), so two calls with the identical route and
identical `current_cycle_used_hours` but different clock readings return
different results — every period's timestamps differ. -/
theorem C8_counterexample :
    ¬ (compute_schedule_for_route routeC8 0 0
        = compute_schedule_for_route routeC8 0 1) := by
  with_unfolding_all decide

/-- C8 amended: the function is deterministic given the route, the cycle
hours, and the clock reading: shifting the clock reading by `d` translates
every period's timestamps by exactly `d` and changes nothing else (statuses,
notes, durations, mileage annotations, totals). Two calls with identical
route, cycle hours and clock reading are literally equal. -/
theorem C8_amended_shift (route : RouteGeoJson) (cyc now d : ℚ) :
    compute_schedule_for_route route cyc (now + d)
      = shiftResult d (compute_schedule_for_route route cyc now) := by
  unfold compute_schedule_for_route
  cases hf : route.features with
  | nil => simp [shiftResult]
  | cons f fs =>
      simp only
      rw [preLoop_shift, simMeasure_shift, loopRun_shift, postLoop_shift]
      simp [shiftResult, shiftState]

theorem dsub_cons_neutral (p : Period) (l : List Period)
    (h : dsubNeutral p) : dsub (p :: l) = dsub l := by
  simp only [dsub]
  rw [if_neg h.2, if_neg h.1, zero_add]

theorem dsub_nil_of_neutral (l : List Period)
    (h : ∀ p ∈ l, dsubNeutral p) : dsub l = 0 := by
  induction l with
  | nil => rfl
  | cons p l ih =>
      rw [dsub_cons_neutral p l (h p (List.mem_cons_self p l))]
      exact ih (fun q hq => h q (List.mem_cons_of_mem p hq))

theorem dsub_append_neutral (l c : List Period)
    (h : ∀ p ∈ c, dsubNeutral p) : dsub (l ++ c) = dsub l := by
  induction l with
  | nil => exact dsub_nil_of_neutral c h
  | cons p l ih =>
      show dsub (p :: (l ++ c)) = dsub (p :: l)
      simp only [dsub]
      by_cases hb : p.note = "30 min mandatory break (after 8 hrs driving)"
      · rw [if_pos hb, if_pos hb]
      · rw [if_neg hb, if_neg hb, ih]

theorem stepEmits_break (st : SimState)
    (h1 : st.driving_since_break ≥ BREAK_AFTER_HRS) :
    stepEmits st = [⟨"OffDuty", st.t, st.t + 30/60,
      "30 min mandatory break (after 8 hrs driving)", st.miles_driven⟩] := by
  unfold stepEmits
  rw [loopStep_break st h1, breakStep_eq]
  exact List.drop_left _ _

theorem stepEmits_restart (st : SimState)
    (h1 : ¬ st.driving_since_break ≥ BREAK_AFTER_HRS)
    (h2 : ¬ (st.driving_today ≥ MAX_DRIVE_HRS ∨ st.on_duty_today ≥ MAX_ON_DUTY_HRS))
    (h3 : st.cycle_used ≥ CYCLE_LIMIT_HRS) :
    stepEmits st = [⟨"OffDuty", st.t, st.t + RESTART_OFF_DUTY_HRS,
      "34 hr restart (70 hr / 8-day rule)", st.miles_driven⟩] := by
  unfold stepEmits
  rw [loopStep_restart st h1 h2 h3, restartStep_eq]
  exact List.drop_left _ _

theorem stepEmits_daily_far (st : SimState)
    (h1 : ¬ st.driving_since_break ≥ BREAK_AFTER_HRS)
    (h2 : st.driving_today ≥ MAX_DRIVE_HRS ∨ st.on_duty_today ≥ MAX_ON_DUTY_HRS)
    (h100 : 100 < st.remaining_miles) :
    stepEmits st = [sleeperPeriod st, complPeriod st] := by
  unfold stepEmits
  rw [loopStep_daily st h1 h2, dailyStep_eq_far st h100]
  exact List.drop_left _ _

theorem stepEmits_daily_mid (st : SimState)
    (h1 : ¬ st.driving_since_break ≥ BREAK_AFTER_HRS)
    (h2 : st.driving_today ≥ MAX_DRIVE_HRS ∨ st.on_duty_today ≥ MAX_ON_DUTY_HRS)
    (h50 : 50 < st.remaining_miles) (h100 : ¬ 100 < st.remaining_miles) :
    stepEmits st = [sleeperPeriod st] := by
  unfold stepEmits
  rw [loopStep_daily st h1 h2, dailyStep_eq_mid st h50 h100]
  exact List.drop_left _ _

theorem stepEmits_daily_near (st : SimState)
    (h1 : ¬ st.driving_since_break ≥ BREAK_AFTER_HRS)
    (h2 : st.driving_today ≥ MAX_DRIVE_HRS ∨ st.on_duty_today ≥ MAX_ON_DUTY_HRS)
    (h50 : ¬ 50 < st.remaining_miles) :
    stepEmits st = [⟨"OffDuty", st.t, st.t + OFF_DUTY_RESET_HRS,
      "10 hr off-duty reset (11/14 hr rule)", st.miles_driven⟩] := by
  unfold stepEmits
  rw [loopStep_daily st h1 h2, dailyStep_eq_near st h50]
  exact List.drop_left _ _

theorem stepEmits_drive_fuel (st : SimState)
    (h1 : ¬ st.driving_since_break ≥ BREAK_AFTER_HRS)
    (h2 : ¬ (st.driving_today ≥ MAX_DRIVE_HRS ∨ st.on_duty_today ≥ MAX_ON_DUTY_HRS))
    (h3 : ¬ st.cycle_used ≥ CYCLE_LIMIT_HRS)
    (hf : fuelFires st) :
    stepEmits st = [drivePeriod st, fuelPeriod st] := by
  unfold stepEmits
  rw [loopStep_drive st h1 h2 h3, driveStep_eq_fuel st hf]
  exact List.drop_left _ _

theorem stepEmits_drive_nofuel (st : SimState)
    (h1 : ¬ st.driving_since_break ≥ BREAK_AFTER_HRS)
    (h2 : ¬ (st.driving_today ≥ MAX_DRIVE_HRS ∨ st.on_duty_today ≥ MAX_ON_DUTY_HRS))
    (h3 : ¬ st.cycle_used ≥ CYCLE_LIMIT_HRS)
    (hf : ¬ fuelFires st) :
    stepEmits st = [drivePeriod st] := by
  unfold stepEmits
  rw [loopStep_drive st h1 h2 h3, driveStep_eq_nofuel st hf]
  exact List.drop_left _ _

theorem dsub_cons_driving (p : Period) (l : List Period)
    (hD : p.status = "Driving")
    (hn : p.note ≠ "30 min mandatory break (after 8 hrs driving)") :
    dsub (p :: l) = (p.stop - p.start) + dsub l := by
  simp only [dsub]
  rw [if_neg hn, if_pos hD]

/-- From any state satisfying `PhaseInv`, the driving emitted before the
next mandatory break totals at most `8 − driving_since_break` hours. -/
theorem phase_bound (n : Nat) :
    ∀ st : SimState, PhaseInv st →
      dsub (emittedRun n st) ≤ 8 - st.driving_since_break := by
  induction n with
  | zero =>
      intro st hInv
      obtain ⟨_, h8, _, _⟩ := hInv
      show (0:ℚ) ≤ 8 - st.driving_since_break
      linarith
  | succ n ih =>
      intro st hInv
      obtain ⟨⟨k, hk⟩, h8, hdt, hod⟩ := hInv
      rw [emittedRun]
      by_cases hr : st.remaining_miles > 0
      · rw [if_pos hr]
        have hodle : st.on_duty_today ≤ st.driving_since_break + 3/4 := by
          rcases hod with h | h
          · linarith
          · linarith [h.1]
        by_cases h1 : st.driving_since_break ≥ BREAK_AFTER_HRS
        · -- the break fires: dsub stops here
          rw [stepEmits_break st h1, List.cons_append, List.nil_append]
          simp [dsub]
          linarith
        · have h1' : st.driving_since_break < 8 := by
            unfold BREAK_AFTER_HRS at h1
            exact lt_of_not_ge h1
          have hk7 : (k : ℚ) ≤ 7 := by
            have hlt : (k : ℚ) < 8 := by rw [← hk]; exact h1'
            have : k < 8 := by exact_mod_cast hlt
            have : k ≤ 7 := Nat.le_of_lt_succ this
            exact_mod_cast this
          have hdsb7 : st.driving_since_break ≤ 7 := by rw [hk]; exact hk7
          by_cases h2 : st.driving_today ≥ MAX_DRIVE_HRS
              ∨ st.on_duty_today ≥ MAX_ON_DUTY_HRS
          · exfalso
            unfold MAX_DRIVE_HRS MAX_ON_DUTY_HRS at h2
            rcases h2 with h | h
            · rw [hdt] at h; linarith
            · linarith
          · by_cases h3 : st.cycle_used ≥ CYCLE_LIMIT_HRS
            · -- 34 h restart: dsub-neutral, state invariant untouched
              rw [stepEmits_restart st h1 h2 h3, List.cons_append,
                List.nil_append, loopStep_restart st h1 h2 h3]
              rw [dsub_cons_neutral _ _ ⟨by simp, by simp⟩]
              have hInv' : PhaseInv (restartStep st) := ⟨⟨k, hk⟩, h8, hdt, hod⟩
              have hrec := ih (restartStep st) hInv'
              have hsame : (restartStep st).driving_since_break
                  = st.driving_since_break := rfl
              rw [hsame] at hrec
              exact hrec
            · -- driving leg
              rw [loopStep_drive st h1 h2 h3]
              rcases le_or_lt 55 st.remaining_miles with hrem | hrem
              · -- full 55-mile, 1-hour leg
                have hm : milesThisLeg st = 55 := by
                  unfold milesThisLeg AVG_SPEED_MPH
                  exact min_eq_right hrem
                have hh : hoursThisLeg st = 1 := by
                  unfold hoursThisLeg AVG_SPEED_MPH MAX_DRIVE_HRS MAX_ON_DUTY_HRS
                  rw [hm]
                  have h5555 : (55:ℚ)/55 = 1 := by norm_num
                  rw [h5555]
                  refine min_eq_left (le_min ?_ ?_)
                  · rw [hdt]; linarith
                  · linarith
                have hdur : (drivePeriod st).stop - (drivePeriod st).start
                    = hoursThisLeg st := by
                  unfold drivePeriod; ring
                by_cases hf : fuelFires st
                · -- leg followed by a fuel stop
                  have hodl : st.on_duty_today = st.driving_since_break := by
                    rcases hod with h | h
                    · exact h
                    · exfalso
                      obtain ⟨hmf, _⟩ := hf
                      rw [hm] at hmf
                      linarith [h.2]
                  rw [stepEmits_drive_fuel st h1 h2 h3 hf, List.cons_append,
                    List.cons_append, List.nil_append]
                  rw [dsub_cons_driving _ _ rfl (by simp [drivePeriod]), hdur,
                    dsub_cons_neutral _ _ ⟨by simp [fuelPeriod], by simp [fuelPeriod]⟩]
                  have hInv' : PhaseInv (driveStep st) := by
                    rw [driveStep_eq_fuel st hf]
                    refine ⟨⟨k + 1, ?_⟩, ?_, ?_, Or.inr ⟨?_, ?_⟩⟩
                    · show st.driving_since_break + hoursThisLeg st = ((k+1 : ℕ) : ℚ)
                      rw [hh, hk]; push_cast; ring
                    · show st.driving_since_break + hoursThisLeg st ≤ 8
                      rw [hh]; linarith
                    · show st.driving_today + hoursThisLeg st
                        = st.driving_since_break + hoursThisLeg st
                      rw [hdt]
                    · show st.on_duty_today + hoursThisLeg st + FUEL_STOP_MIN/60
                        = st.driving_since_break + hoursThisLeg st + 3/4
                      rw [hodl]
                      unfold FUEL_STOP_MIN
                      norm_num
                    · show (1000:ℚ) ≤ FUEL_RANGE_MILES
                        + 55 * (st.driving_since_break + hoursThisLeg st)
                      unfold FUEL_RANGE_MILES
                      rw [hh, hk]
                      have : (0:ℚ) ≤ (k:ℚ) := Nat.cast_nonneg k
                      linarith
                  have hrec := ih (driveStep st) hInv'
                  have hnext : (driveStep st).driving_since_break
                      = st.driving_since_break + hoursThisLeg st := by
                    rw [driveStep_eq_fuel st hf]
                  rw [hnext] at hrec
                  rw [hh] at hrec ⊢
                  linarith
                · -- plain leg
                  rw [stepEmits_drive_nofuel st h1 h2 h3 hf, List.cons_append,
                    List.nil_append]
                  rw [dsub_cons_driving _ _ rfl (by simp [drivePeriod]), hdur]
                  have hInv' : PhaseInv (driveStep st) := by
                    rw [driveStep_eq_nofuel st hf]
                    refine ⟨⟨k + 1, ?_⟩, ?_, ?_, ?_⟩
                    · show st.driving_since_break + hoursThisLeg st = ((k+1 : ℕ) : ℚ)
                      rw [hh, hk]; push_cast; ring
                    · show st.driving_since_break + hoursThisLeg st ≤ 8
                      rw [hh]; linarith
                    · show st.driving_today + hoursThisLeg st
                        = st.driving_since_break + hoursThisLeg st
                      rw [hdt]
                    · rcases hod with h | h
                      · exact Or.inl (by
                          show st.on_duty_today + hoursThisLeg st
                            = st.driving_since_break + hoursThisLeg st
                          rw [h])
                      · refine Or.inr ⟨?_, ?_⟩
                        · show st.on_duty_today + hoursThisLeg st
                            = st.driving_since_break + hoursThisLeg st + 3/4
                          rw [h.1]; ring
                        · show (1000:ℚ) ≤ st.miles_until_fuel - milesThisLeg st
                            + 55 * (st.driving_since_break + hoursThisLeg st)
                          rw [hm, hh]
                          linarith [h.2]
                  have hrec := ih (driveStep st) hInv'
                  have hnext : (driveStep st).driving_since_break
                      = st.driving_since_break + hoursThisLeg st := by
                    rw [driveStep_eq_nofuel st hf]
                  rw [hnext] at hrec
                  rw [hh] at hrec ⊢
                  linarith
              · -- final fractional leg: the trip ends, no further emission
                have hm : milesThisLeg st = st.remaining_miles := by
                  unfold milesThisLeg AVG_SPEED_MPH
                  exact min_eq_left (le_of_lt hrem)
                have hh : hoursThisLeg st = st.remaining_miles / 55 := by
                  unfold hoursThisLeg AVG_SPEED_MPH MAX_DRIVE_HRS MAX_ON_DUTY_HRS
                  rw [hm]
                  have hq : st.remaining_miles / 55 < 1 := by
                    rw [div_lt_one (by norm_num : (0:ℚ) < 55)]
                    exact hrem
                  refine min_eq_left (le_min ?_ ?_)
                  · rw [hdt]; linarith
                  · linarith
                have hf : ¬ fuelFires st := by
                  rintro ⟨_, hpos⟩
                  rw [hm, sub_self] at hpos
                  exact lt_irrefl 0 hpos
                rw [stepEmits_drive_nofuel st h1 h2 h3 hf, List.cons_append,
                  List.nil_append]
                have hdone : emittedRun n (driveStep st) = [] := by
                  apply emittedRun_of_done
                  rw [driveStep_eq_nofuel st hf]
                  show ¬ st.remaining_miles - milesThisLeg st > 0
                  rw [hm, sub_self]
                  exact lt_irrefl 0
                rw [hdone]
                rw [dsub_cons_driving _ _ rfl (by simp [drivePeriod])]
                have hdur : (drivePeriod st).stop - (drivePeriod st).start
                    = hoursThisLeg st := by
                  unfold drivePeriod; ring
                rw [hdur, hh]
                show st.remaining_miles / 55 + dsub [] ≤ _
                have hq : st.remaining_miles / 55 < 1 := by
                  rw [div_lt_one (by norm_num : (0:ℚ) < 55)]
                  exact hrem
                show st.remaining_miles / 55 + 0 ≤ 8 - st.driving_since_break
                linarith
      · rw [if_neg hr]
        show (0:ℚ) ≤ 8 - st.driving_since_break
        linarith

theorem anchor_cons (p : Period) (l : List Period)
    (hnp : ¬ isResetPeriod p)
    (hrec : ∀ i, isResetPeriod (l.getD i dfltPeriod) → i < l.length →
      dsub (l.drop (i+1)) ≤ 8) :
    ∀ i, isResetPeriod ((p :: l).getD i dfltPeriod) → i < (p :: l).length →
      dsub ((p :: l).drop (i+1)) ≤ 8 := by
  intro i ha hi
  cases i with
  | zero => rw [List.getD_cons_zero] at ha; exact absurd ha hnp
  | succ i =>
      rw [List.getD_cons_succ] at ha
      rw [List.drop_succ_cons]
      exact hrec i ha (by simpa using hi)

/-- After any reset-type period emitted by the main loop, the driving
emitted before the next mandatory break totals at most 8 hours. -/
theorem emitted_anchor (n : Nat) :
    ∀ st i, isResetPeriod ((emittedRun n st).getD i dfltPeriod) →
      i < (emittedRun n st).length →
      dsub ((emittedRun n st).drop (i+1)) ≤ 8 := by
  induction n with
  | zero =>
      intro st i _ hi
      simp [emittedRun] at hi
  | succ n ih =>
      intro st i
      rw [emittedRun]
      by_cases hr : st.remaining_miles > 0
      case neg =>
        rw [if_neg hr]
        intro _ hi
        simp at hi
      rw [if_pos hr]
      by_cases h1 : st.driving_since_break ≥ BREAK_AFTER_HRS
      · rw [stepEmits_break st h1, List.cons_append, List.nil_append]
        exact anchor_cons _ _ (by simp [isResetPeriod]) (ih (loopStep st)) i
      · by_cases h2 : st.driving_today ≥ MAX_DRIVE_HRS
            ∨ st.on_duty_today ≥ MAX_ON_DUTY_HRS
        · -- daily-limit branch: the emitted period(s) are reset anchors
          have hInv : PhaseInv (loopStep st) := by
            rw [loopStep_daily st h1 h2]
            by_cases h50 : 50 < st.remaining_miles
            · by_cases h100 : 100 < st.remaining_miles
              · rw [dailyStep_eq_far st h100]
                exact ⟨⟨0, by norm_num⟩, by norm_num, rfl, Or.inl rfl⟩
              · rw [dailyStep_eq_mid st h50 h100]
                exact ⟨⟨0, by norm_num⟩, by norm_num, rfl, Or.inl rfl⟩
            · rw [dailyStep_eq_near st h50]
              exact ⟨⟨0, by norm_num⟩, by norm_num, rfl, Or.inl rfl⟩
          have hz : (loopStep st).driving_since_break = 0 := by
            rw [loopStep_daily st h1 h2]
            by_cases h50 : 50 < st.remaining_miles
            · by_cases h100 : 100 < st.remaining_miles
              · rw [dailyStep_eq_far st h100]
              · rw [dailyStep_eq_mid st h50 h100]
            · rw [dailyStep_eq_near st h50]
          have hbound : dsub (emittedRun n (loopStep st)) ≤ 8 := by
            have hb := phase_bound n (loopStep st) hInv
            rw [hz] at hb
            linarith
          by_cases h50 : 50 < st.remaining_miles
          · by_cases h100 : 100 < st.remaining_miles
            · rw [stepEmits_daily_far st h1 h2 h100, List.cons_append,
                List.cons_append, List.nil_append]
              intro ha hi
              cases i with
              | zero =>
                  rw [List.drop_succ_cons, List.drop_zero]
                  rw [dsub_cons_neutral _ _
                    ⟨by simp [complPeriod], by simp [complPeriod]⟩]
                  exact hbound
              | succ i =>
                  cases i with
                  | zero =>
                      rw [List.drop_succ_cons, List.drop_succ_cons,
                        List.drop_zero]
                      exact hbound
                  | succ i =>
                      rw [List.getD_cons_succ, List.getD_cons_succ] at ha
                      rw [List.drop_succ_cons, List.drop_succ_cons]
                      refine ih (loopStep st) i ha ?_
                      simp at hi
                      omega
            · rw [stepEmits_daily_mid st h1 h2 h50 h100, List.cons_append,
                List.nil_append]
              intro ha hi
              cases i with
              | zero =>
                  rw [List.drop_succ_cons, List.drop_zero]
                  exact hbound
              | succ i =>
                  rw [List.getD_cons_succ] at ha
                  rw [List.drop_succ_cons]
                  refine ih (loopStep st) i ha ?_
                  simp at hi
                  omega
          · rw [stepEmits_daily_near st h1 h2 h50, List.cons_append,
              List.nil_append]
            intro ha hi
            cases i with
            | zero =>
                rw [List.drop_succ_cons, List.drop_zero]
                exact hbound
            | succ i =>
                rw [List.getD_cons_succ] at ha
                rw [List.drop_succ_cons]
                refine ih (loopStep st) i ha ?_
                simp at hi
                omega
        · by_cases h3 : st.cycle_used ≥ CYCLE_LIMIT_HRS
          · rw [stepEmits_restart st h1 h2 h3, List.cons_append,
              List.nil_append]
            exact anchor_cons _ _ (by simp [isResetPeriod]) (ih (loopStep st)) i
          · by_cases hf : fuelFires st
            · rw [stepEmits_drive_fuel st h1 h2 h3 hf, List.cons_append,
                List.cons_append, List.nil_append]
              refine anchor_cons _ _ (by simp [isResetPeriod, drivePeriod]) ?_ i
              exact anchor_cons _ _ (by simp [isResetPeriod, fuelPeriod])
                (ih (loopStep st))
            · rw [stepEmits_drive_nofuel st h1 h2 h3 hf, List.cons_append,
                List.nil_append]
              exact anchor_cons _ _ (by simp [isResetPeriod, drivePeriod])
                (ih (loopStep st)) i

theorem schedule_anchor_general (A B C : List Period)
    (hA : ∀ p ∈ A, ¬ isResetPeriod p)
    (hB : ∀ i, isResetPeriod (B.getD i dfltPeriod) → i < B.length →
      dsub (B.drop (i+1)) ≤ 8)
    (hC : ∀ p ∈ C, dsubNeutral p)
    (i : Nat) (hi : i < (A ++ B ++ C).length)
    (ha : isResetPeriod ((A ++ B ++ C).getD i dfltPeriod)) :
    dsub ((A ++ B ++ C).drop (i+1)) ≤ 8 := by
  rw [List.append_assoc] at hi ha ⊢
  rcases lt_or_ge i A.length with hiA | hiA
  · exfalso
    rw [List.getD_append _ _ _ _ hiA, List.getD_eq_getElem A _ hiA] at ha
    exact hA _ (List.getElem_mem hiA) ha
  · rcases lt_or_ge i (A.length + B.length) with hiB | hiB
    · -- the anchor is in B
      have hj : i - A.length < B.length := by omega
      rw [List.getD_append_right _ _ _ _ hiA,
        List.getD_append _ _ _ _ hj] at ha
      have hsplit : i + 1 = A.length + (i - A.length + 1) := by omega
      rw [hsplit, List.drop_append]
      rw [List.drop_append_of_le_length (by omega)]
      rw [dsub_append_neutral _ _ hC]
      exact hB _ ha hj
    · -- the anchor is in C: everything after it is dsub-neutral
      have hsplit : i + 1 = A.length + (B.length + (i + 1 - A.length - B.length)) := by
        omega
      rw [hsplit, List.drop_append, List.drop_append]
      refine le_trans (le_of_eq (dsub_nil_of_neutral _ ?_)) (by norm_num)
      intro p hp
      exact hC p (List.drop_subset _ _ hp)

theorem preLoop_noReset (segments : List Seg) (cyc now : ℚ) :
    ∀ p ∈ (preLoopState segments cyc now).schedule, ¬ isResetPeriod p := by
  cases segments with
  | nil =>
      intro p hp
      simp [preLoopState, appendP] at hp
      rcases hp with hp | hp <;> · rw [hp]; simp [isResetPeriod]
  | cons s rest =>
      intro p hp
      simp [preLoopState, appendP] at hp
      rcases hp with hp | hp | hp <;> · rw [hp]; simp [isResetPeriod]

/-- C3 is false as stated: the 34-hour restart (an `OffDuty` reset-type
period) does not reset `driving_since_break`, so between its end and the
next mandatory break the schedule contains 10 hours of driving (2 h carried
into the restart window plus a full 8 h stretch after the intervening
sleeper split rest). -/
theorem C3_counterexample :
    ((compute_schedule_for_route routeC3 60 0).schedule.getD 13 dfltPeriod).status
      = "OffDuty"
    ∧ ((compute_schedule_for_route routeC3 60 0).schedule.getD 13 dfltPeriod).note
      = "34 hr restart (70 hr / 8-day rule)"
    ∧ ((compute_schedule_for_route routeC3 60 0).schedule.getD 27 dfltPeriod).note
      = "30 min mandatory break (after 8 hrs driving)"
    ∧ dsub ((compute_schedule_for_route routeC3 60 0).schedule.drop 14) = 10
    ∧ ¬ ((10:ℚ) ≤ 8) := by
  with_unfolding_all decide

/-- C3 amended: between the end of any period that resets the short-term
duty counters (the sleeper-berth split rest, its off-duty completion, the
10 h off-duty reset, the post-trip 10 h rest — every `OffDuty`/`Sleeper`
reset-type period except the 34-hour restart, which resets only
`cycle_used`) and the next mandatory 30-minute break, the accumulated
driving time never exceeds 8 hours. -/
theorem C3_amended (route : RouteGeoJson) (cyc now : ℚ) (i : Nat)
    (hi : i < (compute_schedule_for_route route cyc now).schedule.length)
    (ha : isResetPeriod
      ((compute_schedule_for_route route cyc now).schedule.getD i dfltPeriod)) :
    dsub ((compute_schedule_for_route route cyc now).schedule.drop (i + 1)) ≤ 8 := by
  rcases hsch : route.features with _ | ⟨f, fs⟩
  · have hempty : compute_schedule_for_route route cyc now
        = { schedule := [], total_miles := 0, estimated_drive_hours := 0 } := by
      unfold compute_schedule_for_route; rw [hsch]
    rw [hempty] at hi
    simp at hi
  · have hs : (compute_schedule_for_route route cyc now).schedule
        = ((preLoopState f.segments cyc now).schedule
            ++ emittedRun (simMeasure (preLoopState f.segments cyc now) + 1)
                (preLoopState f.segments cyc now))
          ++ [⟨"OnDutyNotDriving",
                (loopRun (simMeasure (preLoopState f.segments cyc now) + 1)
                  (preLoopState f.segments cyc now)).t,
                (loopRun (simMeasure (preLoopState f.segments cyc now) + 1)
                  (preLoopState f.segments cyc now)).t + DROPOFF_MIN/60,
                "Unload cargo",
                (loopRun (simMeasure (preLoopState f.segments cyc now) + 1)
                  (preLoopState f.segments cyc now)).miles_driven⟩,
              ⟨"OffDuty",
                (loopRun (simMeasure (preLoopState f.segments cyc now) + 1)
                  (preLoopState f.segments cyc now)).t + DROPOFF_MIN/60,
                (loopRun (simMeasure (preLoopState f.segments cyc now) + 1)
                  (preLoopState f.segments cyc now)).t + DROPOFF_MIN/60
                  + OFF_DUTY_RESET_HRS,
                "10 hr rest after trip",
                (loopRun (simMeasure (preLoopState f.segments cyc now) + 1)
                  (preLoopState f.segments cyc now)).miles_driven⟩] := by
      unfold compute_schedule_for_route
      rw [hsch]
      simp only
      rw [postLoop_schedule, loopRun_schedule]
    rw [hs] at hi ha ⊢
    refine schedule_anchor_general _ _ _
      (preLoop_noReset f.segments cyc now)
      (emitted_anchor _ _) ?_ i hi ha
    intro p hp
    simp only [List.mem_cons, List.not_mem_nil, or_false] at hp
    rcases hp with hp | hp <;> · rw [hp]; exact ⟨by simp, by simp⟩

/-- Witness for C3 amended at the sleeper-berth period of a concrete run. -/
theorem C3_amended_witness :
    ((15 + 1 ≤ (compute_schedule_for_route routeC6 0 0).schedule.length
        ∧ isResetPeriod
          ((compute_schedule_for_route routeC6 0 0).schedule.getD 15 dfltPeriod)))
    ∧ dsub ((compute_schedule_for_route routeC6 0 0).schedule.drop (15 + 1)) ≤ 8 :=
  ⟨⟨by with_unfolding_all decide, by with_unfolding_all decide⟩,
   C3_amended routeC6 0 0 15 (by with_unfolding_all decide)
     (by with_unfolding_all decide)⟩

end DriverLog

